import Mathlib

/-!
# Verification of the Automated-Business-Intelligence data pipeline

A shallow embedding, in Lean 4, of the core data pipeline of the
Automated-Business-Intelligence repository:

* `backend/app/data/cleaning.py`  (`DataCleaner`)
* `backend/app/data/kpi_engine.py` (`KPICalculator`)
* `backend/app/data/ingestion.py` (`DataIngestion.validate_dataframe`)

Modelling conventions:

* A pandas `DataFrame` is a `List Row`, in row order.  `Row` carries the
  eight raw input columns plus every derived column the cleaning pipeline
  creates; a pandas `NaN` / `NaT` / absent value is `Option.none`
  (a freshly ingested raw table has `none` in every derived column).
* Python floats are embedded as exact rationals (`Rat`); machine
  floating-point representation error is out of scope of this model.
* Python strings subject to text transformations are embedded as lists of
  code points (`PyStr := List Nat`); `str s` converts a Lean string literal.
* Python's `round` (banker's rounding) is `pyRound`, `int()` truncation is
  `pyTrunc`, `Series.quantile` (linear interpolation) is `seriesQuantile`.
-/

set_option maxRecDepth 100000
set_option maxHeartbeats 2000000

deriving instance DecidableEq for Except

namespace ABI

/-- Code-point list model of a Python string. -/
abbrev PyStr := List Nat

/-- Convert a Lean string literal to its code-point list. -/
def str (s : String) : PyStr := s.toList.map Char.toNat

/-- ASCII uppercase of a single code point (`str.upper` per character). -/
def upChar (n : Nat) : Nat := if 97 ≤ n ∧ n ≤ 122 then n - 32 else n

/-- ASCII lowercase of a single code point (`str.lower` per character). -/
def lowChar (n : Nat) : Nat := if 65 ≤ n ∧ n ≤ 90 then n + 32 else n

/-- Cased (alphabetic ASCII) test for a code point. -/
def alphaChar (n : Nat) : Bool := (65 ≤ n ∧ n ≤ 90) ∨ (97 ≤ n ∧ n ≤ 122)

/-- Whitespace test for a code point (the characters `str.strip` removes). -/
def spaceChar (n : Nat) : Bool := n = 32 ∨ n = 9 ∨ n = 10 ∨ n = 13 ∨ n = 11 ∨ n = 12

/-- Python `str.strip()`: drop whitespace from both ends. -/
def pyStrip (s : PyStr) : PyStr :=
  ((s.dropWhile spaceChar).reverse.dropWhile spaceChar).reverse

/-- Worker for `pyTitle`; the flag records whether the previous character
was cased, exactly as CPython's `str.title` tracks it. -/
def titleAux (prevCased : Bool) : PyStr → PyStr
  | [] => []
  | c :: cs =>
    let c' := if prevCased then lowChar c else upChar c
    c' :: titleAux (alphaChar c') cs

/-- Python `str.title()`: first character of each cased run uppercased,
the rest lowercased. -/
def pyTitle (s : PyStr) : PyStr := titleAux false s

/-- Strict lexicographic order on code-point lists (Python `str <`). -/
def strLt : PyStr → PyStr → Bool
  | [], [] => false
  | [], _ :: _ => true
  | _ :: _, [] => false
  | x :: xs, y :: ys => if x < y then true else if y < x then false else strLt xs ys

/-- Stable insertion of `x` in front of the first element it strictly
precedes according to `before`. -/
def insertBy (before : α → α → Bool) (x : α) : List α → List α
  | [] => [x]
  | y :: ys => if before x y then x :: y :: ys else y :: insertBy before x ys

/-- Stable insertion sort: ties keep their original relative order. -/
def sortBy (before : α → α → Bool) : List α → List α
  | [] => []
  | x :: xs => insertBy before x (sortBy before xs)

/-- Worker for `dedupKeepFirst`: `seen` holds the values already kept. -/
def dedupSeen [DecidableEq α] (seen : List α) : List α → List α
  | [] => []
  | x :: xs => if x ∈ seen then dedupSeen seen xs else x :: dedupSeen (x :: seen) xs

/-- Keep the first occurrence of every value, drop later repeats
(pandas `duplicated(keep='first')` removal). -/
def dedupKeepFirst [DecidableEq α] (l : List α) : List α := dedupSeen [] l

/-- Number of distinct values in a list (pandas `nunique` over non-null
values). -/
def numDistinct [DecidableEq α] (l : List α) : Nat := (dedupKeepFirst l).length

/-- Round half to even at integer precision. -/
def roundHalfEven (x : Rat) : Int :=
  let f := x.floor
  let d := x - (f : Rat)
  if d < 1/2 then f else if 1/2 < d then f + 1 else if f % 2 = 0 then f else f + 1

/-- Python `round(x, prec)` over exact rationals. -/
def pyRound (prec : Nat) (x : Rat) : Rat :=
  (roundHalfEven (x * (10 : Rat) ^ prec) : Rat) / (10 : Rat) ^ prec

/-- Python `int(x)`: truncation toward zero. -/
def pyTrunc (x : Rat) : Int := if 0 ≤ x then x.floor else x.ceil

/-- Pandas `Series.quantile(q)` with the default linear interpolation,
`none` on an all-null series (NaN). -/
def seriesQuantile (q : Rat) (xs : List Rat) : Option Rat :=
  if xs.isEmpty then none
  else
    let s := sortBy (fun a b => decide (a < b)) xs
    let pos := q * ((s.length : Rat) - 1)
    let i := pos.floor.toNat
    let lo := s.getD i 0
    let hi := s.getD (i + 1) lo
    some (lo + (pos - (i : Rat)) * (hi - lo))

/-! ## Data model -/

/-- A timestamp (pandas `datetime64` value), to calendar precision. -/
structure Ts where
  year : Nat
  month : Nat
  day : Nat
  hour : Nat
  minute : Nat
  second : Nat
deriving DecidableEq

/-- `Series.dt.floor('min')`: zero out the seconds. -/
def Ts.floorMin (t : Ts) : Ts := { t with second := 0 }

/-- `Series.dt.quarter`. -/
def Ts.quarter (t : Ts) : Nat := (t.month + 2) / 3

/-- `Series.dt.strftime('%B')`: English month name. -/
def monthNameOf (m : Nat) : PyStr :=
  match m with
  | 1 => str "January" | 2 => str "February" | 3 => str "March"
  | 4 => str "April" | 5 => str "May" | 6 => str "June"
  | 7 => str "July" | 8 => str "August" | 9 => str "September"
  | 10 => str "October" | 11 => str "November" | 12 => str "December"
  | _ => str ""

/-- Day of the week by Zeller's congruence (0 = Saturday), used to embed
`Series.dt.day_name()`. -/
def zellerIndex (t : Ts) : Nat :=
  let Y := if t.month < 3 then t.year - 1 else t.year
  let M := if t.month < 3 then t.month + 12 else t.month
  (t.day + 13 * (M + 1) / 5 + Y + Y / 4 + 6 * (Y / 100) + Y / 400) % 7

/-- `Series.dt.day_name()`. -/
def dayNameOf (t : Ts) : PyStr :=
  (["Saturday", "Sunday", "Monday", "Tuesday", "Wednesday", "Thursday",
    "Friday"].map str).getD (zellerIndex t) (str "")

/-- One row of the (pandas) table.  The first eight fields are the raw
input columns; the rest are the columns `DataCleaner` derives.  `none`
models a missing / NaN / NaT cell; on a freshly ingested raw table every
derived column is `none` (the column does not exist yet). -/
structure Row where
  invoiceNo : Option PyStr
  stockCode : Option PyStr
  description : Option PyStr
  quantity : Option Rat
  invoiceDate : Option Ts
  unitPrice : Option Rat
  customerID : Option PyStr
  country : Option PyStr
  transactionValue : Option Rat := none
  isReturn : Option Bool := none
  salesRevenue : Option Rat := none
  returnsValue : Option Rat := none
  netRevenue : Option Rat := none
  revenue : Option Rat := none
  year : Option Nat := none
  month : Option Nat := none
  monthName : Option PyStr := none
  quarter : Option Nat := none
  weekday : Option PyStr := none
  dayOfMonth : Option Nat := none
  hour : Option Nat := none
  date : Option (Nat × Nat × Nat) := none
  transactionRef : Option PyStr := none
  dataQualityScore : Option Rat := none
  qualityFlag : Option PyStr := none
  needsReview : Option Bool := none
deriving DecidableEq

/-- The eight raw input columns of a row, bundled.  The derived columns the
pipeline writes are functions of these (plus table-level statistics). -/
def Row.originals (r : Row) :
    Option PyStr × Option PyStr × Option PyStr × Option Rat × Option Ts ×
    Option Rat × Option PyStr × Option PyStr :=
  (r.invoiceNo, r.stockCode, r.description, r.quantity, r.invoiceDate,
   r.unitPrice, r.customerID, r.country)

/-! ## Cleaning pipeline (`DataCleaner`, cleaning.py) -/

/-- `Series.mode()[0]` for a string column: the most frequent value,
smallest in lexicographic order on ties (pandas sorts the modes). -/
def modeStr (l : List PyStr) : PyStr :=
  let cands := dedupKeepFirst l
  cands.foldl
    (fun best s =>
      if l.count best < l.count s ∨ (l.count s = l.count best ∧ strLt s best)
      then s else best)
    (cands.headD (str "Unknown"))

/-- Step 1, `_handle_missing_values`: `CustomerID` nulls become
`'Unknown'`, `Description` nulls `'Unknown Product'`, `Country` nulls the
column mode (or `'Unknown'` if the column is entirely null), `Quantity`
and `UnitPrice` nulls `0`. -/
def handleMissingValues (df : List Row) : List Row :=
  let countryFill :=
    let known := df.filterMap (·.country)
    if known.isEmpty then str "Unknown" else modeStr known
  df.map fun r =>
    { r with
      customerID := some (r.customerID.getD (str "Unknown"))
      description := some (r.description.getD (str "Unknown Product"))
      country := some (r.country.getD countryFill)
      quantity := some (r.quantity.getD 0)
      unitPrice := some (r.unitPrice.getD 0) }

/-- Step 2, `_fix_data_types`: id-like columns to string (`astype(str)`
renders a NaN as the string `"nan"`), `Quantity`/`UnitPrice` to numeric
with nulls becoming `0`, `InvoiceDate` to datetime (already typed in this
embedding; unparseable dates are `none` from ingestion). -/
def fixDataTypes (df : List Row) : List Row :=
  df.map fun r =>
    { r with
      invoiceNo := some (r.invoiceNo.getD (str "nan"))
      stockCode := some (r.stockCode.getD (str "nan"))
      customerID := some (r.customerID.getD (str "nan"))
      country := some (r.country.getD (str "nan"))
      quantity := some (r.quantity.getD 0)
      unitPrice := some (r.unitPrice.getD 0) }

/-- Step 3, `_remove_invalid_rows`: drop rows with null `InvoiceDate`,
then rows with `UnitPrice <= 0`, then rows with `Quantity == 0`.  A NaN
never satisfies a pandas `<=`/`==` comparison, so a null price or
quantity is kept by those two filters. -/
def removeInvalidRows (df : List Row) : List Row :=
  let d1 := df.filter (fun r => r.invoiceDate.isSome)
  let d2 := d1.filter (fun r =>
    match r.unitPrice with
    | some p => decide (¬ p ≤ 0)
    | none => true)
  d2.filter (fun r =>
    match r.quantity with
    | some q => decide (¬ q = 0)
    | none => true)

/-- Step 4, `_standardize_text`: `Country` stripped and title-cased,
`Description` stripped. -/
def standardizeText (df : List Row) : List Row :=
  df.map fun r =>
    { r with
      country := r.country.map (fun s => pyTitle (pyStrip s))
      description := r.description.map pyStrip }

/-- The extreme-value test of `_create_derived_columns`:
`value > threshold99 * 3`, false whenever either side is NaN. -/
def exceedsThreshold (v t99 : Option Rat) : Bool :=
  match v, t99 with
  | some v, some t => decide (t * 3 < v)
  | _, _ => false

/-- Per-row part of step 5 (`_create_derived_columns`), parameterised by
the table-level 99th percentiles of `Quantity` and `UnitPrice`.  NaN
propagates through arithmetic; a NaN quantity compares false, so such a
row gets `SalesRevenue = ReturnsValue = 0` from the `else` branches.  The
`QualityFlag` assignments via `df.loc` overwrite only the flagged rows,
so an unflagged row keeps its previous `QualityFlag` value. -/
def deriveRow (qty99 price99 : Option Rat) (r : Row) : Row :=
  let tv : Option Rat :=
    match r.quantity, r.unitPrice with
    | some q, some p => some (q * p)
    | _, _ => none
  let sales : Option Rat :=
    match r.quantity with
    | some q => if 0 < q then tv else some 0
    | none => some 0
  let rets : Option Rat :=
    match r.quantity with
    | some q => if q < 0 then tv.map (|·|) else some 0
    | none => some 0
  let net : Option Rat :=
    match sales, rets with
    | some s, some t => some (s - t)
    | _, _ => none
  let qexc := exceedsThreshold r.quantity qty99
  let pexc := exceedsThreshold r.unitPrice price99
  { r with
    transactionValue := tv
    isReturn := some (match r.quantity with | some q => decide (q < 0) | none => false)
    salesRevenue := sales
    returnsValue := rets
    netRevenue := net
    revenue := net
    year := r.invoiceDate.map (·.year)
    month := r.invoiceDate.map (·.month)
    monthName := r.invoiceDate.map (fun t => monthNameOf t.month)
    quarter := r.invoiceDate.map Ts.quarter
    weekday := r.invoiceDate.map dayNameOf
    dayOfMonth := r.invoiceDate.map (·.day)
    hour := r.invoiceDate.map (·.hour)
    date := r.invoiceDate.map (fun t => (t.year, t.month, t.day))
    transactionRef :=
      match r.invoiceNo, r.stockCode with
      | some a, some b => some (a ++ str "_" ++ b)
      | _, _ => none
    dataQualityScore :=
      some ((if qexc then (7 : Rat)/10 else 1) * (if pexc then (7 : Rat)/10 else 1))
    qualityFlag :=
      if pexc then some (str "Extreme price")
      else if qexc then some (str "Extreme quantity")
      else r.qualityFlag }

/-- Step 5, `_create_derived_columns`: transaction value, return flag,
sales/returns/net revenue (`Revenue := NetRevenue`), calendar components,
`TransactionRef`, and the data-quality score/flag driven by the 99th
percentiles of `Quantity` and `UnitPrice` over the current table. -/
def createDerivedColumns (df : List Row) : List Row :=
  let qty99 := seriesQuantile (99/100) (df.filterMap (·.quantity))
  let price99 := seriesQuantile (99/100) (df.filterMap (·.unitPrice))
  df.map (deriveRow qty99 price99)

/-- Invoice + stock-code key used by step 6; `none` when either column is
null (pandas `groupby` drops such rows). -/
def comboOf (r : Row) : Option (PyStr × PyStr) :=
  match r.invoiceNo, r.stockCode with
  | some a, some b => some (a, b)
  | _, _ => none

/-- The invoice+stock-code combinations occurring more than once in a
table — the "legitimate multiple entries" step 6 counts but preserves. -/
def legitMultipleCombos (df : List Row) : List (PyStr × PyStr) :=
  let keys := df.filterMap comboOf
  (dedupKeepFirst keys).filter (fun k => 1 < keys.count k)

/-- Suspicious-cluster test of step 6: more than 3 rows of `df` share this
row's invoice number and floored-to-minute timestamp.  Rows with a null
invoice or date never belong to a pandas group. -/
def suspiciousIn (df : List Row) (r : Row) : Bool :=
  match r.invoiceNo, r.invoiceDate with
  | some i, some d =>
      3 < df.countP (fun s =>
        s.invoiceNo = some i ∧ s.invoiceDate.map Ts.floorMin = some d.floorMin)
  | _, _ => false

/-- Statistics reported by step 6 (`_remove_duplicates`).  Keys that the
Python code only writes when their count is positive are `Option`s. -/
structure DupStats where
  exactDuplicatesRemoved : Option Nat
  legitimateMultipleEntries : Option Nat
  totalMultipleEntryRows : Option Nat
  suspiciousTransactionsForReview : Option Nat
  finalRows : Nat
  rowsRemoved : Nat
  removalRate : Rat
deriving DecidableEq

/-- Step 6, `_remove_duplicates`: remove exact duplicates (first
occurrence kept), count legitimate invoice+stock-code multiples without
removing them, and mark suspicious same-invoice same-minute clusters with
`NeedsReview = True` (other rows keep their previous `NeedsReview`). -/
def removeDuplicates (df : List Row) : List Row × DupStats :=
  let deduped := dedupKeepFirst df
  let exactCount := df.length - deduped.length
  let multiples := legitMultipleCombos deduped
  let keys := deduped.filterMap comboOf
  let suspCount := deduped.countP (suspiciousIn deduped)
  let flagged := deduped.map fun r =>
    if suspiciousIn deduped r then { r with needsReview := some true } else r
  (flagged,
    { exactDuplicatesRemoved := if 0 < exactCount then some exactCount else none
      legitimateMultipleEntries :=
        if 0 < multiples.length then some multiples.length else none
      totalMultipleEntryRows :=
        if 0 < multiples.length then some (multiples.map (keys.count ·)).sum else none
      suspiciousTransactionsForReview :=
        if 0 < suspCount then some suspCount else none
      finalRows := flagged.length
      rowsRemoved := df.length - flagged.length
      removalRate :=
        if 0 < df.length then
          pyRound 2 (((df.length : Rat) - flagged.length) / df.length * 100)
        else 0 })

/-- The cleaning report of `clean_dataset` (the fields the claims refer
to; per-step statistics other than step 6's are not modelled). -/
structure CleaningReport where
  originalRows : Nat
  finalRows : Nat
  rowsRemoved : Nat
  rowsRemovedPercentage : Rat
  cleaningCompleted : Bool
  dupStats : DupStats
deriving DecidableEq

/-- `DataCleaner.clean_dataset`: the six cleaning stages in order, plus
the final report. -/
def cleanDataset (df : List Row) : List Row × CleaningReport :=
  let d1 := handleMissingValues df
  let d2 := fixDataTypes d1
  let d3 := removeInvalidRows d2
  let d4 := standardizeText d3
  let d5 := createDerivedColumns d4
  let step6 := removeDuplicates d5
  (step6.1,
    { originalRows := df.length
      finalRows := step6.1.length
      rowsRemoved := df.length - step6.1.length
      rowsRemovedPercentage :=
        if 0 < df.length then
          pyRound 2 ((1 - (step6.1.length : Rat) / df.length) * 100)
        else 0
      cleaningCompleted := true
      dupStats := step6.2 })

/-! ## Ingestion validation (`DataIngestion.validate_dataframe`, ingestion.py)

The embedding works on already-parsed, fixed-schema tables, so the
"missing required columns" error and the "column is not numeric type"
warning — which concern a dataframe's column set and dtypes, both fixed
by the `Row` type — cannot fire and are not modelled. -/

/-- Validation errors (block the pipeline). -/
inductive VError where
  | emptyFile : VError
  | columnEmpty (col : String) : VError
  | dateEmpty : VError
  | negativePrices (count : Nat) : VError
deriving DecidableEq

/-- Validation warnings (non-blocking). -/
inductive VWarning where
  | duplicateRows (count : Nat) : VWarning
  | negativeQuantities (count : Nat) : VWarning
deriving DecidableEq

/-- The dictionary `validate_dataframe` returns.  The early empty-table
return carries no `duplicate_rows` / `missing_columns` keys, hence the
`Option`s. -/
structure ValidationResult where
  isValid : Bool
  errors : List VError
  warnings : List VWarning
  duplicateRows : Option Nat
  missingColumns : Option (List String)
deriving DecidableEq

/-- `DataIngestion.validate_dataframe`: schema errors are returned as
data, never raised.  A negative unit price is an error; a negative
quantity only a warning (it denotes a return). -/
def validateDataframe (df : List Row) : ValidationResult :=
  if df.isEmpty then
    { isValid := false, errors := [.emptyFile], warnings := []
      duplicateRows := none, missingColumns := none }
  else
    let qtyEmpty := df.all (fun r => r.quantity = none)
    let priceEmpty := df.all (fun r => r.unitPrice = none)
    let dateEmpty := df.all (fun r => r.invoiceDate = none)
    let dupCount := df.length - (dedupKeepFirst df).length
    let negQty := df.countP (fun r =>
      match r.quantity with | some q => decide (q < 0) | none => false)
    let negPrice := df.countP (fun r =>
      match r.unitPrice with | some p => decide (p < 0) | none => false)
    let errors :=
      (if qtyEmpty then [VError.columnEmpty "Quantity"] else []) ++
      (if priceEmpty then [VError.columnEmpty "UnitPrice"] else []) ++
      (if dateEmpty then [VError.dateEmpty] else []) ++
      (if 0 < negPrice then [VError.negativePrices negPrice] else [])
    let warnings :=
      (if 0 < dupCount then [VWarning.duplicateRows dupCount] else []) ++
      (if 0 < negQty then [VWarning.negativeQuantities negQty] else [])
    { isValid := errors.isEmpty, errors := errors, warnings := warnings
      duplicateRows := some dupCount, missingColumns := some [] }

/-! ## KPI engine (`KPICalculator`, kpi_engine.py)

Each metric category is modelled as a structure holding the fields the
claims consume; fields of the Python dicts not listed (date ranges,
distribution percentiles, RFM details, moving averages, …) are not
modelled.  A category whose dict can be `{}` is an `Option`.  The health
score computation can raise a `TypeError` (comparison of `None` with
`int`), so the engine as a whole returns an `Except`. -/

/-- `summary` category (`_calculate_summary_metrics`). -/
structure Summary where
  totalRevenue : Rat
  totalTransactions : Nat
  totalProducts : Nat
  totalCustomers : Nat
  totalItemsSold : Int
  avgTransactionValue : Rat
  avgItemsPerTransaction : Rat
deriving DecidableEq

/-- Sum of the `Revenue` column (pandas `sum` skips NaN). -/
def sumRevenue (df : List Row) : Rat := (df.map (fun r => r.revenue.getD 0)).sum

def calcSummaryMetrics (df : List Row) : Summary :=
  let totalRevenue := pyRound 2 (sumRevenue df)
  let totalTransactions := numDistinct (df.filterMap (·.invoiceNo))
  let totalItemsSold := pyTrunc (df.map (fun r => r.quantity.getD 0)).sum
  { totalRevenue := totalRevenue
    totalTransactions := totalTransactions
    totalProducts := numDistinct (df.filterMap (·.stockCode))
    totalCustomers := numDistinct (df.filterMap (·.customerID))
    totalItemsSold := totalItemsSold
    avgTransactionValue :=
      if 0 < totalTransactions then pyRound 2 (totalRevenue / totalTransactions)
      else 0
    avgItemsPerTransaction :=
      if 0 < totalTransactions then
        pyRound 1 ((totalItemsSold : Rat) / totalTransactions)
      else 0 }

/-- Group key `(Year, Month)` of a row; `none` never joins a group. -/
def monthKeyOf (r : Row) : Option (Nat × Nat) :=
  match r.year, r.month with
  | some y, some m => some (y, m)
  | _, _ => none

/-- Ascending order on `(Year, Month)` keys. -/
def monthKeyLt (a b : Nat × Nat) : Bool :=
  a.1 < b.1 ∨ (a.1 = b.1 ∧ a.2 < b.2)

/-- `monthly_revenue`: `groupby(['Year','Month'])['Revenue'].sum()`, keys
in ascending order (pandas sorts group keys), sums rounded to 2 places. -/
def monthlyRevenue (df : List Row) : List ((Nat × Nat) × Rat) :=
  (sortBy monthKeyLt (dedupKeepFirst (df.filterMap monthKeyOf))).map fun k =>
    (k, pyRound 2 ((df.filter (monthKeyOf · = some k)).map
          (fun r => r.revenue.getD 0)).sum)

/-- `revenue` category (`_calculate_revenue_metrics`); only the monthly
series feeds later computations. -/
structure RevenueMetrics where
  monthly : List ((Nat × Nat) × Rat)
deriving DecidableEq

def calcRevenueMetrics (df : List Row) : RevenueMetrics :=
  { monthly := monthlyRevenue df }

/-- `customer` category (`_calculate_customer_metrics`).  When every row
has the `Unknown` customer the code returns early with only
`customer_count` and `avg_customer_value`, hence the `Option` fields. -/
structure CustomerMetrics where
  customerCount : Nat
  avgCustomerValue : Rat
  activeCustomers : Option Nat
  oneTimeCustomers : Option Nat
  topCustomers : Option (List PyStr)
deriving DecidableEq

def calcCustomerMetrics (df : List Row) : CustomerMetrics :=
  let cdf := df.filter (fun r => r.customerID ≠ some (str "Unknown"))
  if cdf.isEmpty then
    { customerCount := 0, avgCustomerValue := 0, activeCustomers := none
      oneTimeCustomers := none, topCustomers := none }
  else
    let ids := sortBy strLt (dedupKeepFirst (cdf.filterMap (·.customerID)))
    let rowsOf := fun cid => cdf.filter (fun r => r.customerID = some cid)
    let spent := fun cid => ((rowsOf cid).map (fun r => r.revenue.getD 0)).sum
    let txCount := fun cid => numDistinct ((rowsOf cid).filterMap (·.invoiceNo))
    { customerCount := ids.length
      avgCustomerValue := pyRound 2 ((ids.map spent).sum / ids.length)
      activeCustomers := some (ids.countP (fun cid => 1 < txCount cid))
      oneTimeCustomers := some (ids.countP (fun cid => txCount cid = 1))
      topCustomers :=
        some ((sortBy (fun a b => decide (spent b < spent a)) ids).take 10) }

/-- `product` category (`_calculate_product_metrics`).  Product groups
are `(StockCode, Description)` pairs; `top_products` keys are the
stringified integer index of the group table (`str(idx)` on the
`reset_index()` range index, labels kept by `nlargest`). -/
structure ProductMetrics where
  totalProducts : Nat
  uniqueProductsSold : Nat
  topProducts : List PyStr
deriving DecidableEq

/-- `(StockCode, Description)` group key. -/
def productKeyOf (r : Row) : Option (PyStr × PyStr) :=
  match r.stockCode, r.description with
  | some a, some b => some (a, b)
  | _, _ => none

/-- Ascending lexicographic order on product group keys. -/
def productKeyLt (a b : PyStr × PyStr) : Bool :=
  strLt a.1 b.1 ∨ (a.1 = b.1 ∧ strLt a.2 b.2)

def calcProductMetrics (df : List Row) : ProductMetrics :=
  let groups := sortBy productKeyLt (dedupKeepFirst (df.filterMap productKeyOf))
  let revOf : PyStr × PyStr → Rat := fun k =>
    ((df.filter (productKeyOf · = some k)).map (fun r => r.revenue.getD 0)).sum
  let indexed := groups.enum
  let top := (sortBy (fun a b => decide (revOf b.2 < revOf a.2)) indexed).take 10
  { totalProducts := groups.length
    uniqueProductsSold := numDistinct (groups.map (·.1))
    topProducts := top.map (fun g => str (toString g.1)) }

/-- `time_series` category (`_calculate_time_series_metrics`); modelled by
its daily revenue aggregate. -/
structure TimeSeriesMetrics where
  dailyRevenue : List ((Nat × Nat × Nat) × Rat)
deriving DecidableEq

/-- Single-number encoding of a calendar date, for ordering day keys. -/
def dateKeyNum (d : Nat × Nat × Nat) : Nat := d.1 * 10000 + d.2.1 * 100 + d.2.2

def calcTimeSeriesMetrics (df : List Row) : TimeSeriesMetrics :=
  { dailyRevenue :=
      (sortBy (fun a b => decide (dateKeyNum a < dateKeyNum b))
          (dedupKeepFirst (df.filterMap (·.date)))).map fun d =>
        (d, ((df.filter (·.date = some d)).map (fun r => r.revenue.getD 0)).sum) }

/-- `geographic` category (`_calculate_geographic_metrics`). -/
structure GeographicMetrics where
  countriesCovered : Nat
  topCountries : List PyStr
  internationalPercentage : Rat
deriving DecidableEq

def calcGeographicMetrics (df : List Row) : GeographicMetrics :=
  let countries := sortBy strLt (dedupKeepFirst (df.filterMap (·.country)))
  let revOf : PyStr → Rat := fun c =>
    ((df.filter (·.country = some c)).map (fun r => r.revenue.getD 0)).sum
  let ranked := sortBy (fun a b => decide (revOf b < revOf a)) countries
  { countriesCovered := countries.length
    topCountries := ranked.take 5
    internationalPercentage :=
      if 1 < countries.length then
        pyRound 2 ((1 - revOf (ranked.headD (str "")) /
          (countries.map revOf).sum) * 100)
      else 0 }

/-- `growth` category value (`_calculate_growth_rates`); the enclosing
dict is `{}` (`none`) when fewer than two months of revenue exist, and
`revenue_mom` is Python `None` (`none`) when the previous month's revenue
is not positive. -/
structure GrowthData where
  revenueMom : Option Rat
  revenueTrend : String
deriving DecidableEq

def calcGrowthRates (monthly : List ((Nat × Nat) × Rat)) : Option GrowthData :=
  if 2 ≤ monthly.length then
    let s := sortBy (fun a b => monthKeyLt a.1 b.1) monthly
    let current := (s.getD (s.length - 1) ((0, 0), 0)).2
    let previous := (s.getD (s.length - 2) ((0, 0), 0)).2
    if 0 < previous then
      let momGrowth := (current - previous) / previous * 100
      some { revenueMom := some (pyRound 2 momGrowth)
             revenueTrend := if 0 < momGrowth then "increasing" else "decreasing" }
    else
      some { revenueMom := none, revenueTrend := "stable" }
  else none

/-- `top_performers` category (`_identify_top_performers`): key lists
sliced from the already-computed top-N structures. -/
structure TopPerformers where
  products : Option (List PyStr)
  customers : Option (List PyStr)
  countries : Option (List PyStr)
deriving DecidableEq

def calcTopPerformers (product : ProductMetrics) (customer : CustomerMetrics)
    (geographic : GeographicMetrics) : TopPerformers :=
  { products := some (product.topProducts.take 5)
    customers := customer.topCustomers.map (·.take 5)
    countries := some (geographic.topCountries.take 3) }

/-- `health_scores` category. -/
structure HealthScores where
  revenueHealth : Rat
  customerHealth : Rat
  productHealth : Rat
  overallHealth : Rat
deriving DecidableEq

/-- `_calculate_health_scores`.  `growth.get('revenue_mom', 0)` yields
Python `None` when the key holds `None`; the subsequent `None > 0`
comparison raises a `TypeError`, which this embedding surfaces as an
`Except.error`. -/
def calcHealthScores (summary : Summary) (growth : Option GrowthData)
    (customer : CustomerMetrics) (product : ProductMetrics) :
    Except String HealthScores := do
  let mom : Rat ←
    match growth with
    | none => pure 0
    | some g =>
      match g.revenueMom with
      | none =>
        throw "TypeError: '>' not supported between instances of 'NoneType' and 'int'"
      | some v => pure v
  let revenueScore : Rat := 50 +
    (if 10000 < summary.totalRevenue then 10 else 0) +
    (if 100 < summary.totalTransactions then 10 else 0) +
    (if 0 < mom then min 20 mom else 0) -
    (if mom < 0 then min 10 |mom| else 0)
  let customerScore : Rat := 50 +
    (if 50 < customer.customerCount then 20 else
      if 10 < customer.customerCount then 10 else 0) +
    (if ((customer.oneTimeCustomers.getD 0 : Nat) : Rat) <
        (customer.customerCount : Rat) * (1/2) then 10 else 0)
  let productScore : Rat := 50 +
    (if 20 < product.totalProducts then 20 else
      if 5 < product.totalProducts then 10 else 0)
  let rh := max 0 (min 100 revenueScore)
  let ch := max 0 (min 100 customerScore)
  let ph := max 0 (min 100 productScore)
  pure { revenueHealth := rh, customerHealth := ch, productHealth := ph
         overallHealth := pyRound 1 (rh * (1/2) + ch * (3/10) + ph * (1/5)) }

/-- `_metadata`; the run duration and recursive metric count are runtime
artefacts and are not modelled. -/
structure MetricsMetadata where
  totalRowsProcessed : Nat
  error : Option String
deriving DecidableEq

/-- The metrics tree `calculate_all_metrics` returns.  A category whose
dict is empty is `none`. -/
structure Metrics where
  summary : Option Summary
  revenue : Option RevenueMetrics
  customer : Option CustomerMetrics
  product : Option ProductMetrics
  timeSeries : Option TimeSeriesMetrics
  geographic : Option GeographicMetrics
  growth : Option GrowthData
  topPerformers : Option TopPerformers
  healthScores : Option HealthScores
  metadata : MetricsMetadata
deriving DecidableEq

/-- The keys of the returned Python dict; both the main path and
`_get_empty_metrics` emit every one of them. -/
def Metrics.topLevelKeys (_ : Metrics) : List String :=
  ["summary", "revenue", "customer", "product", "time_series", "geographic",
   "growth", "top_performers", "health_scores", "calculated_at", "_metadata"]

/-- `_get_empty_metrics`: every category key present with empty content. -/
def emptyMetrics : Metrics :=
  { summary := none, revenue := none, customer := none, product := none
    timeSeries := none, geographic := none, growth := none
    topPerformers := none, healthScores := none
    metadata := { totalRowsProcessed := 0, error := some "No data available" } }

/-- `KPICalculator.calculate_all_metrics`: the empty-metrics short
circuit, the six direct categories, then growth, top performers and
health scores (whose `TypeError` propagates out of the whole call). -/
def calculateAllMetrics (df : List Row) : Except String Metrics :=
  if df.isEmpty then .ok emptyMetrics
  else
    let summary := calcSummaryMetrics df
    let revenue := calcRevenueMetrics df
    let customer := calcCustomerMetrics df
    let product := calcProductMetrics df
    let timeSeries := calcTimeSeriesMetrics df
    let geographic := calcGeographicMetrics df
    let growth := calcGrowthRates revenue.monthly
    let top := calcTopPerformers product customer geographic
    match calcHealthScores summary growth customer product with
    | .error e => .error e
    | .ok health =>
      .ok { summary := some summary, revenue := some revenue
            customer := some customer, product := some product
            timeSeries := some timeSeries, geographic := some geographic
            growth := growth, topPerformers := some top
            healthScores := some health
            metadata := { totalRowsProcessed := df.length, error := none } }

/-! ## Concrete example tables -/

/-- A raw transaction row: invoice `inv`, quantity `q`, unit price
`price`, month `m` of 2023, fixed stock code / customer / country. -/
def mkRaw (inv : String) (q price : Rat) (m : Nat) : Row :=
  { invoiceNo := some (str inv), stockCode := some (str "S1")
    description := some (str "widget"), quantity := some q
    invoiceDate := some ⟨2023, m, 10, 12, 0, 0⟩, unitPrice := some price
    customerID := some (str "C1"), country := some (str "France") }

/-- Four raw rows with quantities `[-400, -400, 10, 10]`; the last two are
byte-identical, so duplicate resolution removes one of them, which shifts
the table's 99th quantity percentile between the first and a second
cleaning run. -/
def twiceCleanInput : List Row :=
  [mkRaw "A" (-400) 1 1, mkRaw "B" (-400) 1 1,
   mkRaw "C" 10 1 1, mkRaw "C" 10 1 1]

/-- Three raw rows: January nets to revenue `0` (a sale and an equal
return), February is positive — so `revenue_mom` becomes `None`. -/
def nullMomInput : List Row :=
  [mkRaw "A" 1 5 1, mkRaw "B" (-1) 5 1, mkRaw "C" 1 3 2]

/-- Two raw rows: January nets to revenue `-5` (a return), February to
`3` — a previous month that is negative rather than zero. -/
def negPrevMonthInput : List Row :=
  [mkRaw "B" (-1) 5 1, mkRaw "C" 1 3 2]

/-- Two raw rows: January revenue `5`, February `3` — ordinary positive
previous month. -/
def posPrevMonthInput : List Row :=
  [mkRaw "B" 1 5 1, mkRaw "C" 1 3 2]

/-- Five raw rows: an identical pair and an identical triple. -/
def dupRows : List Row :=
  [mkRaw "A" 1 1 1, mkRaw "A" 1 1 1,
   mkRaw "B" 2 1 1, mkRaw "B" 2 1 1, mkRaw "B" 2 1 1]

/-- Three rows sharing invoice `I1` and stock code `S1`, each with a
distinct quantity. -/
def trA : Row := mkRaw "I1" 1 1 1
def trB : Row := mkRaw "I1" 2 1 1
def trC : Row := mkRaw "I1" 3 1 1
def tripleRows : List Row := [trA, trB, trC]

/-- A raw table with one negative unit price. -/
def negPriceTable : List Row := [mkRaw "A" 1 5 1, mkRaw "B" 2 (-3) 1]

/-- A raw table whose only anomaly is a negative quantity. -/
def negQtyTable : List Row := [mkRaw "A" 1 5 1, mkRaw "B" (-2) 3 1]

/-- A small mixed table: one sale and one return. -/
def mixedTable : List Row := [mkRaw "A" 2 3 1, mkRaw "B" (-1) 4 1]

/-- An all-null row, used only as a `getD` fallback below. -/
def nullRow : Row :=
  { invoiceNo := none, stockCode := none, description := none
    quantity := none, invoiceDate := none, unitPrice := none
    customerID := none, country := none }

/-- The first row of the cleaned `mixedTable`. -/
def c2row : Row := ((cleanDataset mixedTable).1).getD 0 nullRow

/-- The first row of `createDerivedColumns mixedTable`. -/
def c10row : Row := (createDerivedColumns mixedTable).getD 0 nullRow

/-! ## Supporting lemmas -/

section ListLemmas

variable {α : Type _} [DecidableEq α]

theorem mem_dedupSeen {a : α} :
    ∀ (l seen : List α), a ∈ dedupSeen seen l ↔ a ∈ l ∧ a ∉ seen := by
  intro l
  induction l with
  | nil => intro seen; simp [dedupSeen]
  | cons x xs ih =>
    intro seen
    by_cases hx : x ∈ seen
    · simp only [dedupSeen, if_pos hx, ih, List.mem_cons]
      constructor
      · rintro ⟨h1, h2⟩; exact ⟨Or.inr h1, h2⟩
      · rintro ⟨h1 | h1, h2⟩
        · exact absurd (h1 ▸ hx) h2
        · exact ⟨h1, h2⟩
    · simp only [dedupSeen, if_neg hx, List.mem_cons, ih]
      constructor
      · rintro (rfl | ⟨h1, h2⟩)
        · exact ⟨Or.inl rfl, hx⟩
        · exact ⟨Or.inr h1, fun hs => h2 (Or.inr hs)⟩
      · rintro ⟨rfl | h1, h2⟩
        · exact Or.inl rfl
        · by_cases hax : a = x
          · exact Or.inl hax
          · exact Or.inr ⟨h1, by simp [List.mem_cons, hax, h2]⟩

theorem mem_dedupKeepFirst {a : α} {l : List α} :
    a ∈ dedupKeepFirst l ↔ a ∈ l := by
  simp [dedupKeepFirst, mem_dedupSeen]

theorem nodup_dedupSeen : ∀ (l seen : List α), (dedupSeen seen l).Nodup := by
  intro l
  induction l with
  | nil => intro seen; simp [dedupSeen]
  | cons x xs ih =>
    intro seen
    by_cases hx : x ∈ seen
    · simpa [dedupSeen, hx] using ih seen
    · simp only [dedupSeen, if_neg hx, List.nodup_cons]
      refine ⟨fun hmem => ?_, ih _⟩
      exact ((mem_dedupSeen _ _).1 hmem).2 (List.mem_cons_self _ _)

theorem nodup_dedupKeepFirst (l : List α) : (dedupKeepFirst l).Nodup :=
  nodup_dedupSeen l []

theorem length_dedupSeen_le : ∀ (l seen : List α), (dedupSeen seen l).length ≤ l.length := by
  intro l
  induction l with
  | nil => intro seen; simp [dedupSeen]
  | cons x xs ih =>
    intro seen
    by_cases hx : x ∈ seen
    · simp only [dedupSeen, if_pos hx]
      exact (ih seen).trans (Nat.le_succ _)
    · simpa [dedupSeen, hx] using ih (x :: seen)

theorem length_dedupKeepFirst_le (l : List α) :
    (dedupKeepFirst l).length ≤ l.length :=
  length_dedupSeen_le l []

theorem dedupSeen_eq_self :
    ∀ (l seen : List α), l.Nodup → (∀ a ∈ l, a ∉ seen) → dedupSeen seen l = l := by
  intro l
  induction l with
  | nil => intro seen _ _; rfl
  | cons x xs ih =>
    intro seen hnd hs
    have hx : x ∉ seen := hs x (List.mem_cons_self _ _)
    simp only [dedupSeen, if_neg hx]
    congr 1
    refine ih (x :: seen) (List.Nodup.of_cons hnd) (fun a ha => ?_)
    simp only [List.mem_cons]
    rintro (rfl | h)
    · exact (List.nodup_cons.1 hnd).1 ha
    · exact hs a (List.mem_cons_of_mem _ ha) h

theorem dedupKeepFirst_eq_self {l : List α} (h : l.Nodup) : dedupKeepFirst l = l :=
  dedupSeen_eq_self l [] h (by simp)

theorem nodup_of_dedupSeen_length :
    ∀ (l seen : List α), (dedupSeen seen l).length = l.length →
      l.Nodup ∧ ∀ a ∈ l, a ∉ seen := by
  intro l
  induction l with
  | nil => intro seen _; simp
  | cons x xs ih =>
    intro seen hlen
    by_cases hx : x ∈ seen
    · exfalso
      rw [dedupSeen, if_pos hx] at hlen
      have := length_dedupSeen_le xs seen
      simp [List.length_cons] at hlen
      omega
    · rw [dedupSeen, if_neg hx] at hlen
      simp only [List.length_cons, Nat.add_right_cancel_iff] at hlen
      obtain ⟨hnd, hnotin⟩ := ih (x :: seen) hlen
      refine ⟨List.nodup_cons.2 ⟨fun hmem => ?_, hnd⟩, fun a ha => ?_⟩
      · exact hnotin x hmem (List.mem_cons_self _ _)
      · rcases List.mem_cons.1 ha with rfl | h
        · exact hx
        · exact fun hs => hnotin a h (List.mem_cons_of_mem _ hs)

theorem nodup_of_dedupKeepFirst_length {l : List α}
    (h : (dedupKeepFirst l).length = l.length) : l.Nodup :=
  (nodup_of_dedupSeen_length l [] h).1

theorem count_dedupKeepFirst_of_mem {a : α} {l : List α} (h : a ∈ l) :
    (dedupKeepFirst l).count a = 1 :=
  List.count_eq_one_of_mem (nodup_dedupKeepFirst l) (mem_dedupKeepFirst.2 h)

theorem toFinset_dedupKeepFirst (l : List α) :
    (dedupKeepFirst l).toFinset = l.toFinset := by
  ext a; simp [mem_dedupKeepFirst]

theorem sum_counts_dedupKeepFirst (l : List α) :
    ((dedupKeepFirst l).map (fun v => l.count v)).sum = l.length := by
  rw [← List.sum_toFinset _ (nodup_dedupKeepFirst l), toFinset_dedupKeepFirst]
  exact List.sum_toFinset_count_eq_length l

omit [DecidableEq α] in
theorem length_le_sum_map (f : α → Nat) :
    ∀ (L : List α), (∀ v ∈ L, 1 ≤ f v) → L.length ≤ (L.map f).sum := by
  intro L
  induction L with
  | nil => simp
  | cons x xs ih =>
    intro h
    have h1 := h x (List.mem_cons_self _ _)
    have h2 := ih (fun v hv => h v (List.mem_cons_of_mem _ hv))
    simp only [List.map_cons, List.sum_cons, List.length_cons]
    omega

omit [DecidableEq α] in
theorem sum_map_sub_one (f : α → Nat) :
    ∀ (L : List α), (∀ v ∈ L, 1 ≤ f v) →
      (L.map (fun v => f v - 1)).sum = (L.map f).sum - L.length := by
  intro L
  induction L with
  | nil => simp
  | cons x xs ih =>
    intro h
    have h1 := h x (List.mem_cons_self _ _)
    have h2 := ih (fun v hv => h v (List.mem_cons_of_mem _ hv))
    have h3 := length_le_sum_map f xs (fun v hv => h v (List.mem_cons_of_mem _ hv))
    simp only [List.map_cons, List.sum_cons, List.length_cons]
    omega

omit [DecidableEq α] in
theorem count_filterMap_eq_countP [BEq β] [LawfulBEq β] (f : α → Option β) (y : β) :
    ∀ (l : List α), (l.filterMap f).count y = l.countP (fun x => f x == some y) := by
  intro l
  induction l with
  | nil => rfl
  | cons x xs ih =>
    rw [List.filterMap_cons]
    cases h : f x with
    | none => simp [List.countP_cons, h, ih]
    | some b =>
      by_cases hby : b = y
      · subst hby; simp [List.count_cons, List.countP_cons, h, ih]
      · simp [List.count_cons, List.countP_cons, h, ih, hby]

omit [DecidableEq α] in
theorem count_eq_one_of_nodup_mem [BEq α] [LawfulBEq α] :
    ∀ {l : List α} {a : α}, l.Nodup → a ∈ l → l.count a = 1 := by
  intro l
  induction l with
  | nil => intro a _ ha; simp at ha
  | cons x xs ih =>
    intro a hnd ha
    obtain ⟨hx, hnd'⟩ := List.nodup_cons.1 hnd
    rcases List.mem_cons.1 ha with rfl | h
    · rw [List.count_cons_self, List.count_eq_zero.2 hx]
    · have hxa : ¬ (x == a) = true := by
        intro hbeq
        exact hx (beq_iff_eq.1 hbeq ▸ h)
      simp [List.count_cons, hxa, ih hnd' h]

omit [DecidableEq α] in
theorem two_le_countP {p : α → Bool} :
    ∀ {l : List α} {a b : α}, a ∈ l → b ∈ l → a ≠ b →
      p a = true → p b = true → 2 ≤ l.countP p := by
  intro l
  induction l with
  | nil => intro a b ha; simp at ha
  | cons x xs ih =>
    intro a b ha hb hab hpa hpb
    rcases List.mem_cons.1 ha with rfl | ha'
    · have hb' : b ∈ xs := by
        rcases List.mem_cons.1 hb with rfl | h
        · exact absurd rfl hab
        · exact h
      have : 0 < xs.countP p := List.countP_pos_iff.2 ⟨b, hb', hpb⟩
      simp only [List.countP_cons, hpa, if_pos]
      omega
    · rcases List.mem_cons.1 hb with rfl | hb'
      · have : 0 < xs.countP p := List.countP_pos_iff.2 ⟨a, ha', hpa⟩
        simp only [List.countP_cons, hpb, if_pos]
        omega
      · have := ih ha' hb' hab hpa hpb
        simp only [List.countP_cons]
        omega

omit [DecidableEq α] in
theorem length_insertBy (before : α → α → Bool) (x : α) :
    ∀ l : List α, (insertBy before x l).length = l.length + 1 := by
  intro l
  induction l with
  | nil => rfl
  | cons y ys ih =>
    rw [insertBy]
    split
    · rfl
    · simpa using ih

omit [DecidableEq α] in
theorem length_sortBy (before : α → α → Bool) :
    ∀ l : List α, (sortBy before l).length = l.length := by
  intro l
  induction l with
  | nil => rfl
  | cons x xs ih =>
    rw [sortBy, length_insertBy, ih]
    rfl

end ListLemmas

/-! ### Text-transformation lemmas: `str.strip` and `str.title` are
idempotent, which drives the idempotence of the standardisation stage. -/

section TextLemmas

theorem dropWhile_shape (p : α → Bool) :
    ∀ l : List α, l.dropWhile p = [] ∨
      ∃ x xs, l.dropWhile p = x :: xs ∧ p x = false := by
  intro l
  induction l with
  | nil => exact Or.inl rfl
  | cons y ys ih =>
    rw [List.dropWhile_cons]
    split
    · exact ih
    · next h => exact Or.inr ⟨y, ys, rfl, Bool.of_not_eq_true h⟩

theorem dropWhile_eq_self_of_head (p : α → Bool) {l : List α}
    (h : l = [] ∨ ∃ x xs, l = x :: xs ∧ p x = false) : l.dropWhile p = l := by
  rcases h with rfl | ⟨x, xs, rfl, hx⟩
  · rfl
  · rw [List.dropWhile_cons, if_neg (by simp [hx])]

theorem dropWhile_idem (p : α → Bool) (l : List α) :
    (l.dropWhile p).dropWhile p = l.dropWhile p :=
  dropWhile_eq_self_of_head p (dropWhile_shape p l)

theorem dropWhile_append_singleton (p : α → Bool) {a : α} (ha : p a = false) :
    ∀ u : List α, ∃ v, (u ++ [a]).dropWhile p = v ++ [a] := by
  intro u
  induction u with
  | nil => exact ⟨[], by simp [List.dropWhile_cons, ha]⟩
  | cons x xs ih =>
    by_cases hx : p x
    · simpa [List.dropWhile_cons, hx] using ih
    · exact ⟨x :: xs, by simp [List.dropWhile_cons, hx]⟩

/-- The normal form of a stripped string: empty, or headed and ended by
non-whitespace characters. -/
theorem pyStrip_shape (s : PyStr) :
    pyStrip s = [] ∨
      ∃ x v, pyStrip s = x :: v ∧ spaceChar x = false ∧
        ∃ y, (pyStrip s).getLast? = some y ∧ spaceChar y = false := by
  rcases dropWhile_shape spaceChar s with h | ⟨x, xs, h, hx⟩
  · left
    unfold pyStrip
    rw [h]
    rfl
  · right
    obtain ⟨v, hv⟩ := dropWhile_append_singleton spaceChar hx xs.reverse
    have hxsrev : (x :: xs).reverse = xs.reverse ++ [x] := by simp
    have hps : pyStrip s = x :: v.reverse := by
      unfold pyStrip
      rw [h, hxsrev, hv]
      simp
    refine ⟨x, v.reverse, hps, hx, ?_⟩
    have hlast : (pyStrip s).getLast? =
        (List.dropWhile spaceChar (xs.reverse ++ [x])).head? := by
      unfold pyStrip
      rw [h, hxsrev, List.getLast?_reverse]
    rcases dropWhile_shape spaceChar (xs.reverse ++ [x]) with h0 | ⟨z, zs, h0, hz⟩
    · rw [hv] at h0
      exact absurd h0 (by simp)
    · refine ⟨z, ?_, hz⟩
      rw [hlast, h0]
      rfl

theorem pyStrip_head_false {s : PyStr} {c : Nat}
    (h : (pyStrip s).head? = some c) : spaceChar c = false := by
  rcases pyStrip_shape s with h0 | ⟨x, v, h0, hx, _⟩
  · rw [h0] at h; exact absurd h (by simp)
  · rw [h0] at h
    simp at h
    rw [← h]
    exact hx

theorem pyStrip_last_false {s : PyStr} {c : Nat}
    (h : (pyStrip s).getLast? = some c) : spaceChar c = false := by
  rcases pyStrip_shape s with h0 | ⟨x, v, h0, _, y, hy, hyf⟩
  · rw [h0] at h; exact absurd h (by simp)
  · rw [hy] at h
    rw [← Option.some.inj h]
    exact hyf

/-- Stripping an already edge-clean list is the identity. -/
theorem pyStrip_eq_self {l : PyStr}
    (hh : ∀ c, l.head? = some c → spaceChar c = false)
    (hl : ∀ c, l.getLast? = some c → spaceChar c = false) :
    pyStrip l = l := by
  unfold pyStrip
  have h1 : l.dropWhile spaceChar = l := by
    refine dropWhile_eq_self_of_head spaceChar ?_
    cases l with
    | nil => exact Or.inl rfl
    | cons x xs => exact Or.inr ⟨x, xs, rfl, hh x rfl⟩
  rw [h1]
  have h2 : l.reverse.dropWhile spaceChar = l.reverse := by
    refine dropWhile_eq_self_of_head spaceChar ?_
    cases hrev : l.reverse with
    | nil => exact Or.inl rfl
    | cons y ys =>
      refine Or.inr ⟨y, ys, rfl, ?_⟩
      have hmem : l.reverse.head? = some y := by rw [hrev]; rfl
      rw [List.head?_reverse] at hmem
      exact hl y hmem
  rw [h2, List.reverse_reverse]

theorem pyStrip_idem (s : PyStr) : pyStrip (pyStrip s) = pyStrip s :=
  pyStrip_eq_self (fun _ h => pyStrip_head_false h)
    (fun _ h => pyStrip_last_false h)

theorem upChar_upChar (n : Nat) : upChar (upChar n) = upChar n := by
  unfold upChar
  by_cases h : 97 ≤ n ∧ n ≤ 122
  · rw [if_pos h, if_neg (by omega)]
  · rw [if_neg h, if_neg h]

theorem lowChar_lowChar (n : Nat) : lowChar (lowChar n) = lowChar n := by
  unfold lowChar
  by_cases h : 65 ≤ n ∧ n ≤ 90
  · rw [if_pos h, if_neg (by omega)]
  · rw [if_neg h, if_neg h]

theorem spaceChar_upChar (n : Nat) : spaceChar (upChar n) = spaceChar n := by
  unfold spaceChar upChar
  split
  · rw [decide_eq_decide]
    omega
  · rfl

theorem spaceChar_lowChar (n : Nat) : spaceChar (lowChar n) = spaceChar n := by
  unfold spaceChar lowChar
  split
  · rw [decide_eq_decide]
    omega
  · rfl

theorem titleAux_idem : ∀ (l : PyStr) (b : Bool),
    titleAux b (titleAux b l) = titleAux b l := by
  intro l
  induction l with
  | nil => intro b; rfl
  | cons c cs ih =>
    intro b
    have hfix : (if b then lowChar (if b then lowChar c else upChar c)
        else upChar (if b then lowChar c else upChar c)) =
        (if b then lowChar c else upChar c) := by
      cases b
      · simp [upChar_upChar]
      · simp [lowChar_lowChar]
    calc titleAux b (titleAux b (c :: cs))
        = titleAux b ((if b then lowChar c else upChar c) ::
            titleAux (alphaChar (if b then lowChar c else upChar c)) cs) := by
          simp only [titleAux]
      _ = (if b then lowChar (if b then lowChar c else upChar c)
            else upChar (if b then lowChar c else upChar c)) ::
          titleAux (alphaChar (if b then lowChar (if b then lowChar c else upChar c)
            else upChar (if b then lowChar c else upChar c)))
            (titleAux (alphaChar (if b then lowChar c else upChar c)) cs) := by
          simp only [titleAux]
      _ = (if b then lowChar c else upChar c) ::
          titleAux (alphaChar (if b then lowChar c else upChar c))
            (titleAux (alphaChar (if b then lowChar c else upChar c)) cs) := by
          rw [hfix]
      _ = (if b then lowChar c else upChar c) ::
          titleAux (alphaChar (if b then lowChar c else upChar c)) cs := by
          rw [ih]
      _ = titleAux b (c :: cs) := by simp only [titleAux]

theorem pyTitle_idem (s : PyStr) : pyTitle (pyTitle s) = pyTitle s :=
  titleAux_idem s false

theorem map_spaceChar_titleAux : ∀ (l : PyStr) (b : Bool),
    (titleAux b l).map spaceChar = l.map spaceChar := by
  intro l
  induction l with
  | nil => intro b; rfl
  | cons c cs ih =>
    intro b
    simp only [titleAux, List.map_cons, ih]
    cases b
    · simp [spaceChar_upChar]
    · simp [spaceChar_lowChar]

theorem pyTitle_head_space {s : PyStr} {c : Nat}
    (h : (pyTitle s).head? = some c) :
    ∃ d, s.head? = some d ∧ spaceChar c = spaceChar d := by
  cases s with
  | nil => exact absurd h (by simp [pyTitle, titleAux])
  | cons x xs =>
    refine ⟨x, rfl, ?_⟩
    have : (pyTitle (x :: xs)).head? = some (upChar x) := by
      simp [pyTitle, titleAux]
    rw [this] at h
    rw [← Option.some.inj h]
    exact spaceChar_upChar x

theorem pyTitle_last_space {s : PyStr} {c : Nat}
    (h : (pyTitle s).getLast? = some c) :
    ∃ d, s.getLast? = some d ∧ spaceChar c = spaceChar d := by
  have hmap := map_spaceChar_titleAux s false
  have h1 : ((pyTitle s).map spaceChar).getLast? = (s.map spaceChar).getLast? := by
    rw [pyTitle] at *
    rw [hmap]
  rw [List.getLast?_map, List.getLast?_map, h] at h1
  cases hs : s.getLast? with
  | none => rw [hs] at h1; exact absurd h1 (by simp)
  | some d =>
    rw [hs] at h1
    simp only [Option.map] at h1
    exact ⟨d, rfl, Option.some.inj h1⟩

/-- Title-casing a stripped string leaves it edge-clean, so stripping it
again is the identity. -/
theorem pyStrip_pyTitle_pyStrip (s : PyStr) :
    pyStrip (pyTitle (pyStrip s)) = pyTitle (pyStrip s) := by
  refine pyStrip_eq_self (fun c hc => ?_) (fun c hc => ?_)
  · obtain ⟨d, hd, hcd⟩ := pyTitle_head_space hc
    rw [hcd]
    exact pyStrip_head_false hd
  · obtain ⟨d, hd, hcd⟩ := pyTitle_last_space hc
    rw [hcd]
    exact pyStrip_last_false hd

/-- The composite `title ∘ strip` used for `Country` is idempotent. -/
theorem pyTitle_pyStrip_idem (s : PyStr) :
    pyTitle (pyStrip (pyTitle (pyStrip s))) = pyTitle (pyStrip s) := by
  rw [pyStrip_pyTitle_pyStrip, pyTitle_idem]

end TextLemmas

/-- Revenue-related fields of a derived row, in terms of its quantity and
unit price. -/
theorem deriveRow_revenue_fields (A B : Option Rat) (x : Row) (q p : Rat)
    (hq : x.quantity = some q) (hp : x.unitPrice = some p) :
    (deriveRow A B x).quantity = some q ∧
    (deriveRow A B x).unitPrice = some p ∧
    (deriveRow A B x).transactionValue = some (q * p) ∧
    (deriveRow A B x).salesRevenue = some (if 0 < q then q * p else 0) ∧
    (deriveRow A B x).returnsValue = some (if q < 0 then |q * p| else 0) ∧
    (deriveRow A B x).netRevenue =
      some ((if 0 < q then q * p else 0) - (if q < 0 then |q * p| else 0)) := by
  refine ⟨by simp [deriveRow, hq], by simp [deriveRow, hp],
    by simp [deriveRow, hq, hp], ?_, ?_, ?_⟩
  · simp only [deriveRow, hq, hp]
    by_cases h1 : 0 < q <;> simp [h1]
  · simp only [deriveRow, hq, hp]
    by_cases h2 : q < 0 <;> simp [h2]
  · simp only [deriveRow, hq, hp]
    by_cases h1 : 0 < q <;> by_cases h2 : q < 0 <;> simp [h1, h2]

/-- Characterisation of the rows of a cleaned table: quantity and unit
price are present, the price is positive, the quantity nonzero, and the
revenue columns carry the derived-column formulas. -/
theorem mem_cleanDataset_fields (df : List Row) (r : Row)
    (hr : r ∈ (cleanDataset df).1) :
    ∃ q p, r.quantity = some q ∧ r.unitPrice = some p ∧ 0 < p ∧ q ≠ 0 ∧
      r.transactionValue = some (q * p) ∧
      r.salesRevenue = some (if 0 < q then q * p else 0) ∧
      r.returnsValue = some (if q < 0 then |q * p| else 0) ∧
      r.netRevenue = some ((if 0 < q then q * p else 0) -
        (if q < 0 then |q * p| else 0)) := by
  have h1 : (cleanDataset df).1 = (removeDuplicates (createDerivedColumns
      (standardizeText (removeInvalidRows
        (fixDataTypes (handleMissingValues df)))))).1 := rfl
  rw [h1] at hr
  set d2 := fixDataTypes (handleMissingValues df) with hd2
  set d3 := removeInvalidRows d2 with hd3
  set d4 := standardizeText d3 with hd4
  set d5 := createDerivedColumns d4 with hd5
  have h2 : (removeDuplicates d5).1 = (dedupKeepFirst d5).map
      (fun x => if suspiciousIn (dedupKeepFirst d5) x
        then { x with needsReview := some true } else x) := rfl
  rw [h2] at hr
  obtain ⟨r5, hr5, hflag⟩ := List.mem_map.1 hr
  have hr5' : r5 ∈ d5 := mem_dedupKeepFirst.1 hr5
  have h3 : d5 = d4.map (deriveRow
      (seriesQuantile (99/100) (d4.filterMap (·.quantity)))
      (seriesQuantile (99/100) (d4.filterMap (·.unitPrice)))) := rfl
  rw [h3] at hr5'
  obtain ⟨r4, hr4, hder⟩ := List.mem_map.1 hr5'
  have h4 : d4 = d3.map (fun x =>
      { x with country := x.country.map (fun s => pyTitle (pyStrip s))
               description := x.description.map pyStrip }) := rfl
  rw [h4] at hr4
  obtain ⟨r3, hr3, htext⟩ := List.mem_map.1 hr4
  have h5 : d3 = ((d2.filter (fun x => x.invoiceDate.isSome)).filter
      (fun x => match x.unitPrice with
        | some p => decide (¬ p ≤ 0)
        | none => true)).filter
      (fun x => match x.quantity with
        | some q => decide (¬ q = 0)
        | none => true) := rfl
  rw [h5] at hr3
  obtain ⟨hr3a, hq3⟩ := List.mem_filter.1 hr3
  obtain ⟨hr3b, hp3⟩ := List.mem_filter.1 hr3a
  obtain ⟨hr3c, _⟩ := List.mem_filter.1 hr3b
  have h6 : d2 = (handleMissingValues df).map (fun x =>
      { x with invoiceNo := some (x.invoiceNo.getD (str "nan"))
               stockCode := some (x.stockCode.getD (str "nan"))
               customerID := some (x.customerID.getD (str "nan"))
               country := some (x.country.getD (str "nan"))
               quantity := some (x.quantity.getD 0)
               unitPrice := some (x.unitPrice.getD 0) }) := rfl
  rw [h6] at hr3c
  obtain ⟨r1, _, hfix⟩ := List.mem_map.1 hr3c
  -- quantity and unit price of the row entering stage 3
  have hq3some : r3.quantity = some (r1.quantity.getD 0) := by rw [← hfix]
  have hp3some : r3.unitPrice = some (r1.unitPrice.getD 0) := by rw [← hfix]
  set q := r1.quantity.getD 0
  set p := r1.unitPrice.getD 0
  -- the stage-3 filters force a positive price and nonzero quantity
  have hppos : 0 < p := by
    rw [hp3some] at hp3
    simp only [decide_eq_true_eq] at hp3
    exact lt_of_not_ge (fun hge => hp3 hge)
  have hqne : q ≠ 0 := by
    rw [hq3some] at hq3
    simpa using hq3
  -- stage 4 preserves quantity and price
  have hq4 : r4.quantity = some q := by rw [← htext]; exact hq3some
  have hp4 : r4.unitPrice = some p := by rw [← htext]; exact hp3some
  -- stage 5 computes the revenue columns
  obtain ⟨hdq, hdp, hdtv, hdsales, hdrets, hdnet⟩ :=
    deriveRow_revenue_fields _ _ r4 q p hq4 hp4
  -- the suspicious-cluster flagging touches only `needsReview`
  have hfields : r.quantity = r5.quantity ∧ r.unitPrice = r5.unitPrice ∧
      r.transactionValue = r5.transactionValue ∧
      r.salesRevenue = r5.salesRevenue ∧
      r.returnsValue = r5.returnsValue ∧ r.netRevenue = r5.netRevenue := by
    rw [← hflag]
    split <;> exact ⟨rfl, rfl, rfl, rfl, rfl, rfl⟩
  obtain ⟨hfq, hfp, hftv, hfsales, hfrets, hfnet⟩ := hfields
  rw [hder] at hdq hdp hdtv hdsales hdrets hdnet
  exact ⟨q, p, hfq.trans hdq, hfp.trans hdp, hppos, hqne, hftv.trans hdtv,
    hfsales.trans hdsales, hfrets.trans hdrets, hfnet.trans hdnet⟩

/-- The net revenue of a cleaned row equals its raw transaction value
`quantity * price` (the price is positive and the quantity nonzero). -/
theorem cleaned_net_eq_qty_mul_price (df : List Row) (r : Row)
    (hr : r ∈ (cleanDataset df).1) :
    r.netRevenue.getD 0 = r.quantity.getD 0 * r.unitPrice.getD 0 := by
  obtain ⟨q, p, hq, hp, hppos, hqne, _, _, _, hnet⟩ :=
    mem_cleanDataset_fields df r hr
  rw [hq, hp, hnet]
  simp only [Option.getD_some]
  rcases lt_or_gt_of_ne hqne with hneg | hpos
  · have hmul : q * p < 0 := mul_neg_of_neg_of_pos hneg hppos
    rw [if_neg (not_lt.2 (le_of_lt hneg)), if_pos hneg, abs_of_neg hmul]
    ring
  · rw [if_pos hpos, if_neg (not_lt.2 (le_of_lt hpos))]
    ring

/-! ### Second-run stability machinery (for the idempotence claim) -/

theorem map_eq_self {α : Type _} (l : List α) (f : α → α)
    (h : ∀ a ∈ l, f a = a) : l.map f = l :=
  (List.map_congr_left h).trans (List.map_id l)

/-- The quality flag and review flag survive stages 1–4 untouched. -/
theorem mem_stage4_flags (df : List Row)
    (hraw : ∀ r ∈ df, r.qualityFlag = none ∧ r.needsReview = none) :
    ∀ r ∈ standardizeText (removeInvalidRows
      (fixDataTypes (handleMissingValues df))),
      r.qualityFlag = none ∧ r.needsReview = none := by
  intro r hr
  obtain ⟨r3, hr3, hr3e⟩ := List.mem_map.1 hr
  obtain ⟨hr3a, _⟩ := List.mem_filter.1 hr3
  obtain ⟨hr3b, _⟩ := List.mem_filter.1 hr3a
  obtain ⟨hr3c, _⟩ := List.mem_filter.1 hr3b
  obtain ⟨r1, hr1, hr1e⟩ := List.mem_map.1 hr3c
  obtain ⟨r0, hr0, hr0e⟩ := List.mem_map.1 hr1
  have h0 := hraw r0 hr0
  rw [← hr3e, ← hr1e, ← hr0e]
  exact h0

/-- Stage 1 is the identity on a table with no missing values. -/
theorem handleMissingValues_eq_self (l : List Row)
    (h : ∀ r ∈ l, r.customerID.isSome ∧ r.description.isSome ∧
      r.country.isSome ∧ r.quantity.isSome ∧ r.unitPrice.isSome) :
    handleMissingValues l = l := by
  refine map_eq_self l _ (fun r hr => ?_)
  obtain ⟨h1, h2, h3, h4, h5⟩ := h r hr
  obtain ⟨a, ha⟩ := Option.isSome_iff_exists.1 h1
  obtain ⟨b, hb⟩ := Option.isSome_iff_exists.1 h2
  obtain ⟨c, hc⟩ := Option.isSome_iff_exists.1 h3
  obtain ⟨d, hd⟩ := Option.isSome_iff_exists.1 h4
  obtain ⟨e, he⟩ := Option.isSome_iff_exists.1 h5
  simp only [ha, hb, hc, hd, he, Option.getD_some]
  rw [← ha, ← hb, ← hc, ← hd, ← he]

/-- Stage 2 is the identity on a table whose id columns are strings and
whose numeric columns carry values. -/
theorem fixDataTypes_eq_self (l : List Row)
    (h : ∀ r ∈ l, r.invoiceNo.isSome ∧ r.stockCode.isSome ∧
      r.customerID.isSome ∧ r.country.isSome ∧
      r.quantity.isSome ∧ r.unitPrice.isSome) :
    fixDataTypes l = l := by
  refine map_eq_self l _ (fun r hr => ?_)
  obtain ⟨h1, h2, h3, h4, h5, h6⟩ := h r hr
  obtain ⟨a, ha⟩ := Option.isSome_iff_exists.1 h1
  obtain ⟨b, hb⟩ := Option.isSome_iff_exists.1 h2
  obtain ⟨c, hc⟩ := Option.isSome_iff_exists.1 h3
  obtain ⟨d, hd⟩ := Option.isSome_iff_exists.1 h4
  obtain ⟨e, he⟩ := Option.isSome_iff_exists.1 h5
  obtain ⟨f, hf⟩ := Option.isSome_iff_exists.1 h6
  simp only [ha, hb, hc, hd, he, hf, Option.getD_some]
  rw [← ha, ← hb, ← hc, ← hd, ← he, ← hf]

/-- Stage 3 removes nothing from a table of valid rows. -/
theorem removeInvalidRows_eq_self (l : List Row)
    (h : ∀ r ∈ l, r.invoiceDate.isSome ∧
      (∃ p, r.unitPrice = some p ∧ 0 < p) ∧
      (∃ q, r.quantity = some q ∧ q ≠ 0)) :
    removeInvalidRows l = l := by
  have h1 : l.filter (fun r => r.invoiceDate.isSome) = l :=
    List.filter_eq_self.2 (fun r hr => (h r hr).1)
  have h2 : l.filter (fun r =>
      match r.unitPrice with
      | some p => decide (¬ p ≤ 0)
      | none => true) = l := by
    refine List.filter_eq_self.2 (fun r hr => ?_)
    obtain ⟨_, ⟨p, hp, hppos⟩, _⟩ := h r hr
    rw [hp]
    exact decide_eq_true (not_le.2 hppos)
  have hcomp : removeInvalidRows l =
      ((l.filter (fun r => r.invoiceDate.isSome)).filter (fun r =>
        match r.unitPrice with
        | some p => decide (¬ p ≤ 0)
        | none => true)).filter (fun r =>
        match r.quantity with
        | some q => decide (¬ q = 0)
        | none => true) := rfl
  rw [hcomp, h1, h2]
  refine List.filter_eq_self.2 (fun r hr => ?_)
  obtain ⟨_, _, ⟨q, hq, hqne⟩⟩ := h r hr
  rw [hq]
  exact decide_eq_true hqne

/-- Stage 4 is the identity on already-standardised text. -/
theorem standardizeText_eq_self (l : List Row)
    (h : ∀ r ∈ l, (∃ s, r.country = some (pyTitle (pyStrip s))) ∧
      (∃ t, r.description = some (pyStrip t))) :
    standardizeText l = l := by
  refine map_eq_self l _ (fun r hr => ?_)
  obtain ⟨⟨s, hs⟩, ⟨t, ht⟩⟩ := h r hr
  simp only [hs, ht, Option.map_some', pyTitle_pyStrip_idem, pyStrip_idem]
  rw [← hs, ← ht]

/-- Derivation writes only the derived columns: the eight raw columns and
the review flag pass through. -/
theorem deriveRow_keeps (A B : Option Rat) (x : Row) :
    (deriveRow A B x).originals = x.originals ∧
    (deriveRow A B x).needsReview = x.needsReview ∧
    (deriveRow A B x).quantity = x.quantity ∧
    (deriveRow A B x).unitPrice = x.unitPrice ∧
    (deriveRow A B x).invoiceNo = x.invoiceNo ∧
    (deriveRow A B x).invoiceDate = x.invoiceDate :=
  ⟨rfl, rfl, rfl, rfl, rfl, rfl⟩

/-- Review-flagging writes only `needsReview`. -/
theorem flag_ite_keeps (c : Prop) [Decidable c] (x : Row) :
    (if c then { x with needsReview := some true } else x).originals =
      x.originals ∧
    (if c then { x with needsReview := some true } else x).qualityFlag =
      x.qualityFlag ∧
    (if c then { x with needsReview := some true } else x).quantity =
      x.quantity ∧
    (if c then { x with needsReview := some true } else x).unitPrice =
      x.unitPrice ∧
    (if c then { x with needsReview := some true } else x).invoiceNo =
      x.invoiceNo ∧
    (if c then { x with needsReview := some true } else x).invoiceDate =
      x.invoiceDate := by
  split <;> exact ⟨rfl, rfl, rfl, rfl, rfl, rfl⟩

/-- Rows with equal raw columns and equal quality flags derive equally,
except that each keeps its own review flag. -/
theorem deriveRow_congr (A B : Option Rat) (x y : Row)
    (ho : x.originals = y.originals) (hf : x.qualityFlag = y.qualityFlag) :
    deriveRow A B x = { deriveRow A B y with needsReview := x.needsReview } := by
  obtain ⟨i1, i2, i3, i4, i5, i6, i7, i8, i9, i10, i11, i12, i13, i14, i15,
    i16, i17, i18, i19, i20, i21, i22, i23, i24, i25, i26⟩ := x
  obtain ⟨j1, j2, j3, j4, j5, j6, j7, j8, j9, j10, j11, j12, j13, j14, j15,
    j16, j17, j18, j19, j20, j21, j22, j23, j24, j25, j26⟩ := y
  simp only [Row.originals, Prod.mk.injEq] at ho
  obtain ⟨e1, e2, e3, e4, e5, e6, e7, e8⟩ := ho
  subst e1; subst e2; subst e3; subst e4; subst e5; subst e6; subst e7; subst e8
  simp only at hf
  subst hf
  rfl

/-- Rows with equal raw columns derive equally (keeping each row's own
review flag), provided their quality flags agree or some threshold is
exceeded (in which case the output flag ignores the input flag). -/
theorem deriveRow_congr2 (A B : Option Rat) (x y : Row)
    (ho : x.originals = y.originals)
    (hf : x.qualityFlag = y.qualityFlag ∨
      exceedsThreshold x.unitPrice B = true ∨
      exceedsThreshold x.quantity A = true) :
    deriveRow A B x = { deriveRow A B y with needsReview := x.needsReview } := by
  obtain ⟨i1, i2, i3, i4, i5, i6, i7, i8, i9, i10, i11, i12, i13, i14, i15,
    i16, i17, i18, i19, i20, i21, i22, i23, i24, i25, i26⟩ := x
  obtain ⟨j1, j2, j3, j4, j5, j6, j7, j8, j9, j10, j11, j12, j13, j14, j15,
    j16, j17, j18, j19, j20, j21, j22, j23, j24, j25, j26⟩ := y
  simp only [Row.originals, Prod.mk.injEq] at ho
  obtain ⟨e1, e2, e3, e4, e5, e6, e7, e8⟩ := ho
  subst e1; subst e2; subst e3; subst e4; subst e5; subst e6; subst e7; subst e8
  simp only at hf
  rcases hf with hf | hf | hf
  · subst hf
    rfl
  · simp [deriveRow, hf]
  · by_cases hp : exceedsThreshold i6 B = true
    · simp [deriveRow, hp]
    · simp [deriveRow, hp, hf]

/-- Deriving is stable: re-deriving an already-derived row (with any
review flag) changes nothing, provided the underlying raw row carried no
pre-set quality flag. -/
theorem deriveRow_reapply (A B : Option Rat) (r : Row)
    (hflag : r.qualityFlag = none) (v : Option Bool) :
    deriveRow A B { deriveRow A B r with needsReview := v } =
      { deriveRow A B r with needsReview := v } := by
  refine Eq.trans (deriveRow_congr2 A B _ r rfl ?_) rfl
  by_cases hp : exceedsThreshold r.unitPrice B = true
  · exact Or.inr (Or.inl hp)
  · by_cases hq : exceedsThreshold r.quantity A = true
    · exact Or.inr (Or.inr hq)
    · left
      show (if exceedsThreshold r.unitPrice B then some (str "Extreme price")
        else if exceedsThreshold r.quantity A then some (str "Extreme quantity")
        else r.qualityFlag) = r.qualityFlag
      simp [hp, hq]

/-- Shape of the rows of a cleaned table: every raw column is populated,
the text columns are in standardised form, the price is positive and the
quantity nonzero. -/
theorem mem_cleanDataset_shapes (df : List Row) (r : Row)
    (hr : r ∈ (cleanDataset df).1) :
    r.invoiceNo.isSome ∧ r.stockCode.isSome ∧ r.customerID.isSome ∧
    (∃ t, r.description = some (pyStrip t)) ∧
    (∃ s, r.country = some (pyTitle (pyStrip s))) ∧
    r.invoiceDate.isSome ∧
    (∃ p, r.unitPrice = some p ∧ 0 < p) ∧
    (∃ q, r.quantity = some q ∧ q ≠ 0) := by
  have h1 : (cleanDataset df).1 = (removeDuplicates (createDerivedColumns
      (standardizeText (removeInvalidRows
        (fixDataTypes (handleMissingValues df)))))).1 := rfl
  rw [h1] at hr
  set d2 := fixDataTypes (handleMissingValues df) with hd2
  set d3 := removeInvalidRows d2 with hd3
  set d4 := standardizeText d3 with hd4
  set d5 := createDerivedColumns d4 with hd5
  have h2 : (removeDuplicates d5).1 = (dedupKeepFirst d5).map
      (fun x => if suspiciousIn (dedupKeepFirst d5) x
        then { x with needsReview := some true } else x) := rfl
  rw [h2] at hr
  obtain ⟨r5, hr5, hflag⟩ := List.mem_map.1 hr
  have hr5' : r5 ∈ d5 := mem_dedupKeepFirst.1 hr5
  have h3 : d5 = d4.map (deriveRow
      (seriesQuantile (99/100) (d4.filterMap (·.quantity)))
      (seriesQuantile (99/100) (d4.filterMap (·.unitPrice)))) := rfl
  rw [h3] at hr5'
  obtain ⟨r4, hr4, hder⟩ := List.mem_map.1 hr5'
  have h4 : d4 = d3.map (fun x =>
      { x with country := x.country.map (fun s => pyTitle (pyStrip s))
               description := x.description.map pyStrip }) := rfl
  rw [h4] at hr4
  obtain ⟨r3, hr3, htext⟩ := List.mem_map.1 hr4
  have h5 : d3 = ((d2.filter (fun x => x.invoiceDate.isSome)).filter
      (fun x => match x.unitPrice with
        | some p => decide (¬ p ≤ 0)
        | none => true)).filter
      (fun x => match x.quantity with
        | some q => decide (¬ q = 0)
        | none => true) := rfl
  rw [h5] at hr3
  obtain ⟨hr3a, hq3⟩ := List.mem_filter.1 hr3
  obtain ⟨hr3b, hp3⟩ := List.mem_filter.1 hr3a
  obtain ⟨hr3c, hdate3⟩ := List.mem_filter.1 hr3b
  have h6 : d2 = (handleMissingValues df).map (fun x =>
      { x with invoiceNo := some (x.invoiceNo.getD (str "nan"))
               stockCode := some (x.stockCode.getD (str "nan"))
               customerID := some (x.customerID.getD (str "nan"))
               country := some (x.country.getD (str "nan"))
               quantity := some (x.quantity.getD 0)
               unitPrice := some (x.unitPrice.getD 0) }) := rfl
  rw [h6] at hr3c
  obtain ⟨r1, hr1mem, hfix⟩ := List.mem_map.1 hr3c
  obtain ⟨r0, hr0mem, hfill⟩ := List.mem_map.1 (by
    have : handleMissingValues df = df.map (fun x =>
        { x with
          customerID := some (x.customerID.getD (str "Unknown"))
          description := some (x.description.getD (str "Unknown Product"))
          country := some (x.country.getD (
            if (df.filterMap (·.country)).isEmpty then str "Unknown"
            else modeStr (df.filterMap (·.country))))
          quantity := some (x.quantity.getD 0)
          unitPrice := some (x.unitPrice.getD 0) }) := rfl
    rw [this] at hr1mem
    exact hr1mem)
  -- stage-level field equations
  have hinv3 : r3.invoiceNo = some (r1.invoiceNo.getD (str "nan")) := by
    rw [← hfix]
  have hstk3 : r3.stockCode = some (r1.stockCode.getD (str "nan")) := by
    rw [← hfix]
  have hcus3 : r3.customerID = some (r1.customerID.getD (str "nan")) := by
    rw [← hfix]
  have hcty3 : r3.country = some (r1.country.getD (str "nan")) := by
    rw [← hfix]
  have hqty3 : r3.quantity = some (r1.quantity.getD 0) := by rw [← hfix]
  have hprc3 : r3.unitPrice = some (r1.unitPrice.getD 0) := by rw [← hfix]
  have hdsc3 : r3.description = r1.description := by rw [← hfix]
  have hdsc1 : r1.description = some (r0.description.getD (str "Unknown Product")) := by
    rw [← hfill]
  -- project the final row through flagging and derivation
  have hkeep : r.invoiceNo = r4.invoiceNo ∧ r.stockCode = r4.stockCode ∧
      r.customerID = r4.customerID ∧ r.description = r4.description ∧
      r.country = r4.country ∧ r.invoiceDate = r4.invoiceDate ∧
      r.unitPrice = r4.unitPrice ∧ r.quantity = r4.quantity := by
    rw [← hflag, ← hder]
    split <;> exact ⟨rfl, rfl, rfl, rfl, rfl, rfl, rfl, rfl⟩
  obtain ⟨ki, ks, kc, kd, kco, kdt, kp, kq⟩ := hkeep
  have hd4d : r4.description = r3.description.map pyStrip := by rw [← htext]
  have hd4c : r4.country = r3.country.map (fun s => pyTitle (pyStrip s)) := by
    rw [← htext]
  have hd4i : r4.invoiceNo = r3.invoiceNo := by rw [← htext]
  have hd4s : r4.stockCode = r3.stockCode := by rw [← htext]
  have hd4cu : r4.customerID = r3.customerID := by rw [← htext]
  have hd4dt : r4.invoiceDate = r3.invoiceDate := by rw [← htext]
  have hd4p : r4.unitPrice = r3.unitPrice := by rw [← htext]
  have hd4q : r4.quantity = r3.quantity := by rw [← htext]
  refine ⟨?_, ?_, ?_, ?_, ?_, ?_, ?_, ?_⟩
  · rw [ki, hd4i, hinv3]; rfl
  · rw [ks, hd4s, hstk3]; rfl
  · rw [kc, hd4cu, hcus3]; rfl
  · refine ⟨r0.description.getD (str "Unknown Product"), ?_⟩
    rw [kd, hd4d, hdsc3, hdsc1]
    rfl
  · refine ⟨r1.country.getD (str "nan"), ?_⟩
    rw [kco, hd4c, hcty3]
    rfl
  · rw [kdt, hd4dt]
    exact hdate3
  · refine ⟨r1.unitPrice.getD 0, ?_, ?_⟩
    · rw [kp, hd4p, hprc3]
    · rw [hprc3] at hp3
      simp only [decide_eq_true_eq] at hp3
      exact lt_of_not_ge (fun hge => hp3 hge)
  · refine ⟨r1.quantity.getD 0, ?_, ?_⟩
    · rw [kq, hd4q, hqty3]
    · rw [hqty3] at hq3
      simpa using hq3

/-- Rows without review flags that agree after overwriting the review
flag agree outright. -/
theorem review_inj (x y : Row) (hx : x.needsReview = none)
    (hy : y.needsReview = none) (v w : Option Bool)
    (h : { x with needsReview := v } = { y with needsReview := w }) :
    x = y := by
  have h2 : { x with needsReview := (none : Option Bool) } =
      { y with needsReview := (none : Option Bool) } :=
    congrArg (fun z => { z with needsReview := none }) h
  calc x = { x with needsReview := none } := by rw [← hx]
    _ = { y with needsReview := none } := h2
    _ = y := by rw [← hy]

/-- The suspicious-cluster test depends only on a row's invoice and
timestamp and on the multiset of invoice/minute keys of the table. -/
theorem suspiciousIn_congr (l1 l2 : List Row) (x y : Row)
    (hinv : x.invoiceNo = y.invoiceNo) (hdate : x.invoiceDate = y.invoiceDate)
    (hcnt : ∀ (i : PyStr) (d : Ts), l1.countP (fun s => s.invoiceNo = some i ∧
        s.invoiceDate.map Ts.floorMin = some d.floorMin) =
      l2.countP (fun s => s.invoiceNo = some i ∧
        s.invoiceDate.map Ts.floorMin = some d.floorMin)) :
    suspiciousIn l1 x = suspiciousIn l2 y := by
  unfold suspiciousIn
  rw [hinv, hdate]
  cases y.invoiceNo with
  | none => rfl
  | some i =>
    cases y.invoiceDate with
    | none => rfl
    | some d =>
      change decide (3 < List.countP (fun s => s.invoiceNo = some i ∧
          s.invoiceDate.map Ts.floorMin = some d.floorMin) l1) =
        decide (3 < List.countP (fun s => s.invoiceNo = some i ∧
          s.invoiceDate.map Ts.floorMin = some d.floorMin) l2)
      rw [hcnt i d]

/-- Review-flagging a table neither creates nor destroys suspicious
clusters: the suspicious test on the flagged table at a flagged row
agrees with the test on the unflagged table at the unflagged row. -/
theorem suspiciousIn_map_flag (D : List Row) (u : Row) :
    suspiciousIn (D.map (fun x => if suspiciousIn D x
        then { x with needsReview := some true } else x))
      (if suspiciousIn D u then { u with needsReview := some true } else u) =
    suspiciousIn D u := by
  refine suspiciousIn_congr _ _ _ _
    (flag_ite_keeps (suspiciousIn D u = true) u).2.2.2.2.1
    (flag_ite_keeps (suspiciousIn D u = true) u).2.2.2.2.2 (fun i d => ?_)
  rw [List.countP_map]
  refine List.countP_congr (fun x _ => ?_)
  obtain ⟨_, _, _, _, hxi, hxd⟩ := flag_ite_keeps (suspiciousIn D x = true) x
  simp only [Function.comp_apply, decide_eq_true_eq]
  rw [hxi, hxd]

/-! ## Theorems -/

/-- C3: On an empty (zero-row) input table the cleaning pipeline and the
KPI engine both complete and return well-formed zero-valued results: the
cleaning report shows 0 original/final/removed rows and a 0 removal
percentage with all duplicate statistics empty, the KPI engine returns
the empty metrics tree whose `_metadata.total_rows_processed` is 0, and
every top-level category key is present in that tree. -/
theorem empty_table_graceful :
    cleanDataset ([] : List Row) =
      ([], { originalRows := 0, finalRows := 0, rowsRemoved := 0
             rowsRemovedPercentage := 0, cleaningCompleted := true
             dupStats :=
               { exactDuplicatesRemoved := none
                 legitimateMultipleEntries := none
                 totalMultipleEntryRows := none
                 suspiciousTransactionsForReview := none
                 finalRows := 0, rowsRemoved := 0, removalRate := 0 } }) ∧
    calculateAllMetrics ([] : List Row) = .ok emptyMetrics ∧
    emptyMetrics.metadata.totalRowsProcessed = 0 ∧
    (["summary", "revenue", "customer", "product", "time_series",
      "geographic", "growth", "top_performers", "health_scores"].all
      (fun k => emptyMetrics.topLevelKeys.contains k)) = true := by
  refine ⟨by with_unfolding_all decide, by with_unfolding_all decide, rfl, by decide⟩

/-- C4 (code bug): on a cleaned table whose second-most-recent month has
net revenue 0, `_calculate_growth_rates` stores `revenue_mom = None`, and
`_calculate_health_scores` then evaluates `None > 0`, raising a
`TypeError` — the health-score computation fails instead of returning
clamped scores. -/
theorem health_scores_raise_on_null_mom :
    calcGrowthRates (monthlyRevenue (cleanDataset nullMomInput).1) =
      some { revenueMom := none, revenueTrend := "stable" } ∧
    calculateAllMetrics (cleanDataset nullMomInput).1 =
      .error "TypeError: '>' not supported between instances of 'NoneType' and 'int'" := by
  exact ⟨by with_unfolding_all decide, by with_unfolding_all decide⟩

/-- C7 counterexample: cleaning `twiceCleanInput` removes one exact
duplicate; re-cleaning the cleaned table keeps the row count but changes
a `DataQualityScore` (the 99th-percentile threshold is recomputed on the
smaller table), so the derived-column values are not identical. -/
theorem cleaning_second_run_changes_quality_score :
    ((cleanDataset (cleanDataset twiceCleanInput).1).1.length =
      (cleanDataset twiceCleanInput).1.length) ∧
    ((cleanDataset (cleanDataset twiceCleanInput).1).1.map (·.dataQualityScore) ≠
      (cleanDataset twiceCleanInput).1.map (·.dataQualityScore)) := by
  exact ⟨by with_unfolding_all decide, by with_unfolding_all decide⟩

/-- C9 counterexample: on a cleaned table whose two months of revenue are
`-5` then `3`, the previous month's revenue is nonzero (negative), yet
the engine reports a null `revenue_mom` with trend `"stable"` — not the
`"increasing"`/`"decreasing"` label the claim requires for a nonzero
previous month. -/
theorem growth_trend_stable_on_negative_previous :
    monthlyRevenue (cleanDataset negPrevMonthInput).1 =
      [((2023, 1), -5), ((2023, 2), 3)] ∧
    calcGrowthRates (monthlyRevenue (cleanDataset negPrevMonthInput).1) =
      some { revenueMom := none, revenueTrend := "stable" } ∧
    (-5 : Rat) ≠ 0 := by
  exact ⟨by with_unfolding_all decide, by with_unfolding_all decide, by norm_num⟩

/-- C5: In duplicate resolution, every value occurring in the stage's
input survives exact-duplicate removal exactly once, and the reported
`exact_duplicates_removed` count (0 when the key is absent) equals the
number of dropped rows, which is the sum over all duplicate groups of
(group size − 1). -/
theorem exact_duplicate_removal_groups (l : List Row) :
    (∀ v ∈ l, (dedupKeepFirst l).count v = 1) ∧
    (removeDuplicates l).2.exactDuplicatesRemoved.getD 0
      = l.length - (dedupKeepFirst l).length ∧
    l.length - (dedupKeepFirst l).length
      = ((dedupKeepFirst l).map (fun v => l.count v - 1)).sum := by
  refine ⟨fun v hv => count_dedupKeepFirst_of_mem hv, ?_, ?_⟩
  · have h : (removeDuplicates l).2.exactDuplicatesRemoved =
        (if 0 < l.length - (dedupKeepFirst l).length
         then some (l.length - (dedupKeepFirst l).length) else none) := rfl
    rw [h]
    split
    · rfl
    · simp only [Option.getD_none]
      omega
  · rw [sum_map_sub_one (fun v => l.count v) (dedupKeepFirst l)
      (fun v hv => List.count_pos_iff.2 (mem_dedupKeepFirst.1 hv)),
      sum_counts_dedupKeepFirst]

/-- C5 witness: the general theorem evaluated on a table with an
identical pair and an identical triple. -/
theorem exact_duplicate_removal_groups_witness :
    (∀ v ∈ dupRows, (dedupKeepFirst dupRows).count v = 1) ∧
    (removeDuplicates dupRows).2.exactDuplicatesRemoved.getD 0
      = dupRows.length - (dedupKeepFirst dupRows).length ∧
    dupRows.length - (dedupKeepFirst dupRows).length
      = ((dedupKeepFirst dupRows).map (fun v => dupRows.count v - 1)).sum :=
  exact_duplicate_removal_groups dupRows

/-- C6: duplicate resolution never removes rows that share an
invoice+stock-code combination but differ elsewhere: three pairwise
distinct rows with the same combination all survive exact-duplicate
removal, the stage removes nothing further (it only flags), each of the
three reappears in the stage output (up to the `NeedsReview` flag), and
the shared combination is counted exactly once among the legitimate
multiple entries reported. -/
theorem legitimate_multiples_preserved (l : List Row) (a b c : Row)
    (ha : a ∈ l) (hb : b ∈ l) (hc : c ∈ l)
    (hab : a ≠ b) (hac : a ≠ c) (hbc : b ≠ c)
    (inv sc : PyStr)
    (hka : comboOf a = some (inv, sc)) (hkb : comboOf b = some (inv, sc))
    (hkc : comboOf c = some (inv, sc)) :
    a ∈ dedupKeepFirst l ∧ b ∈ dedupKeepFirst l ∧ c ∈ dedupKeepFirst l ∧
    (removeDuplicates l).1.length = (dedupKeepFirst l).length ∧
    (∃ x ∈ (removeDuplicates l).1,
      { x with needsReview := none } = { a with needsReview := none }) ∧
    (∃ x ∈ (removeDuplicates l).1,
      { x with needsReview := none } = { b with needsReview := none }) ∧
    (∃ x ∈ (removeDuplicates l).1,
      { x with needsReview := none } = { c with needsReview := none }) ∧
    (legitMultipleCombos (dedupKeepFirst l)).count (inv, sc) = 1 ∧
    (removeDuplicates l).2.legitimateMultipleEntries =
      some (legitMultipleCombos (dedupKeepFirst l)).length := by
  have hda : a ∈ dedupKeepFirst l := mem_dedupKeepFirst.2 ha
  have hdb : b ∈ dedupKeepFirst l := mem_dedupKeepFirst.2 hb
  have hdc : c ∈ dedupKeepFirst l := mem_dedupKeepFirst.2 hc
  have hfst : (removeDuplicates l).1 = (dedupKeepFirst l).map
      (fun r => if suspiciousIn (dedupKeepFirst l) r
        then { r with needsReview := some true } else r) := rfl
  have survive : ∀ r ∈ dedupKeepFirst l, ∃ x ∈ (removeDuplicates l).1,
      { x with needsReview := none } = { r with needsReview := none } := by
    intro r hr
    refine ⟨if suspiciousIn (dedupKeepFirst l) r
        then { r with needsReview := some true } else r,
      hfst ▸ List.mem_map_of_mem _ hr, ?_⟩
    split <;> rfl
  -- the shared combination is a legitimate multiple, counted once
  have hkeymem : (inv, sc) ∈ (dedupKeepFirst l).filterMap comboOf :=
    List.mem_filterMap.2 ⟨a, hda, hka⟩
  have hcount2 : 1 < ((dedupKeepFirst l).filterMap comboOf).count (inv, sc) := by
    rw [count_filterMap_eq_countP]
    have hpa : (comboOf a == some (inv, sc)) = true := by simp [hka]
    have hpb : (comboOf b == some (inv, sc)) = true := by simp [hkb]
    have := @two_le_countP Row (fun x => comboOf x == some (inv, sc))
      (dedupKeepFirst l) a b hda hdb hab hpa hpb
    omega
  have hnodupkeys : (dedupKeepFirst ((dedupKeepFirst l).filterMap comboOf)).Nodup :=
    nodup_dedupKeepFirst _
  have hmemlegit : (inv, sc) ∈ legitMultipleCombos (dedupKeepFirst l) := by
    unfold legitMultipleCombos
    refine List.mem_filter.2 ⟨mem_dedupKeepFirst.2 hkeymem, ?_⟩
    simpa using hcount2
  have hlegitnodup : (legitMultipleCombos (dedupKeepFirst l)).Nodup := by
    unfold legitMultipleCombos
    exact List.Nodup.filter _ hnodupkeys
  refine ⟨hda, hdb, hdc, by rw [hfst, List.length_map], survive a hda,
    survive b hdb, survive c hdc,
    count_eq_one_of_nodup_mem hlegitnodup hmemlegit, ?_⟩
  have hstat : (removeDuplicates l).2.legitimateMultipleEntries =
      (if 0 < (legitMultipleCombos (dedupKeepFirst l)).length
       then some (legitMultipleCombos (dedupKeepFirst l)).length else none) := rfl
  rw [hstat, if_pos (List.length_pos.2 (List.ne_nil_of_mem hmemlegit))]

/-- C6 witness: the general theorem evaluated on three rows sharing
invoice `I1` and stock code `S1` but with distinct quantities. -/
theorem legitimate_multiples_preserved_witness :
    trA ∈ dedupKeepFirst tripleRows ∧ trB ∈ dedupKeepFirst tripleRows ∧
    trC ∈ dedupKeepFirst tripleRows ∧
    (removeDuplicates tripleRows).1.length = (dedupKeepFirst tripleRows).length ∧
    (∃ x ∈ (removeDuplicates tripleRows).1,
      { x with needsReview := none } = { trA with needsReview := none }) ∧
    (∃ x ∈ (removeDuplicates tripleRows).1,
      { x with needsReview := none } = { trB with needsReview := none }) ∧
    (∃ x ∈ (removeDuplicates tripleRows).1,
      { x with needsReview := none } = { trC with needsReview := none }) ∧
    (legitMultipleCombos (dedupKeepFirst tripleRows)).count
      (str "I1", str "S1") = 1 ∧
    (removeDuplicates tripleRows).2.legitimateMultipleEntries =
      some (legitMultipleCombos (dedupKeepFirst tripleRows)).length :=
  legitimate_multiples_preserved tripleRows trA trB trC
    (by with_unfolding_all decide) (by with_unfolding_all decide)
    (by with_unfolding_all decide) (by with_unfolding_all decide)
    (by with_unfolding_all decide) (by with_unfolding_all decide)
    (str "I1") (str "S1") rfl rfl rfl

/-- C8: ingestion validation returns its verdict as data.  Any table with
a negative unit price validates as invalid with a negative-price entry in
the error list; a table whose only anomaly is negative quantities (all
required columns populated, no negative price) validates as valid, with
the negative quantities reported only as a warning. -/
theorem validation_negative_price_vs_quantity (dfp dfq : List Row) :
    ((∃ r ∈ dfp, ∃ p, r.unitPrice = some p ∧ p < 0) →
      (validateDataframe dfp).isValid = false ∧
      ∃ n, 0 < n ∧ VError.negativePrices n ∈ (validateDataframe dfp).errors) ∧
    ((∃ r ∈ dfq, ∃ q, r.quantity = some q ∧ q < 0) →
      (∀ r ∈ dfq, ∀ p, r.unitPrice = some p → 0 ≤ p) →
      (∃ r ∈ dfq, r.quantity ≠ none) →
      (∃ r ∈ dfq, r.unitPrice ≠ none) →
      (∃ r ∈ dfq, r.invoiceDate ≠ none) →
      (validateDataframe dfq).isValid = true ∧
      ∃ n, 0 < n ∧
        VWarning.negativeQuantities n ∈ (validateDataframe dfq).warnings) := by
  constructor
  · rintro ⟨r, hr, p, hp, hpneg⟩
    have hne : dfp.isEmpty = false := by
      cases dfp with
      | nil => exact absurd hr (List.not_mem_nil r)
      | cons x xs => rfl
    have hpos : 0 < dfp.countP (fun r =>
        match r.unitPrice with | some p => decide (p < 0) | none => false) := by
      refine List.countP_pos_iff.2 ⟨r, hr, ?_⟩
      rw [hp]
      exact decide_eq_true hpneg
    rw [validateDataframe, hne]
    simp only [Bool.false_eq_true, if_false, if_pos hpos]
    constructor
    · simp [List.isEmpty_iff, List.append_eq_nil]
    · exact ⟨_, hpos, by simp⟩
  · rintro ⟨r, hr, q, hq, hqneg⟩ hnop ⟨r1, hr1, hq1⟩ ⟨r2, hr2, hp2⟩ ⟨r3, hr3, hd3⟩
    have hne : dfq.isEmpty = false := by
      cases dfq with
      | nil => exact absurd hr (List.not_mem_nil r)
      | cons x xs => rfl
    have hqe : dfq.all (fun r => r.quantity = none) = false := by
      rw [List.all_eq_false]
      exact ⟨r1, hr1, by simpa using hq1⟩
    have hpe : dfq.all (fun r => r.unitPrice = none) = false := by
      rw [List.all_eq_false]
      exact ⟨r2, hr2, by simpa using hp2⟩
    have hde : dfq.all (fun r => r.invoiceDate = none) = false := by
      rw [List.all_eq_false]
      exact ⟨r3, hr3, by simpa using hd3⟩
    have hnp : dfq.countP (fun r =>
        match r.unitPrice with | some p => decide (p < 0) | none => false) = 0 := by
      rw [List.countP_eq_zero]
      intro s hs
      cases hsp : s.unitPrice with
      | none => simp
      | some p =>
        have := hnop s hs p hsp
        simp only [decide_eq_true_eq]
        exact fun hcon => absurd hcon (not_lt.2 this)
    have hnq : 0 < dfq.countP (fun r =>
        match r.quantity with | some q => decide (q < 0) | none => false) := by
      refine List.countP_pos_iff.2 ⟨r, hr, ?_⟩
      rw [hq]
      exact decide_eq_true hqneg
    rw [validateDataframe, hne]
    simp only [Bool.false_eq_true, if_false, hqe, hpe, hde, hnp, hnq, if_pos,
      lt_irrefl, List.nil_append]
    exact ⟨rfl, _, hnq, by simp⟩

/-- C8 witness: the two validation scenarios evaluated on concrete
tables — one with a negative price, one whose only anomaly is a negative
quantity. -/
theorem validation_negative_price_vs_quantity_witness :
    ((validateDataframe negPriceTable).isValid = false ∧
      ∃ n, 0 < n ∧
        VError.negativePrices n ∈ (validateDataframe negPriceTable).errors) ∧
    ((validateDataframe negQtyTable).isValid = true ∧
      ∃ n, 0 < n ∧
        VWarning.negativeQuantities n ∈ (validateDataframe negQtyTable).warnings) := by
  have h := validation_negative_price_vs_quantity negPriceTable negQtyTable
  refine ⟨h.1 ⟨mkRaw "B" 2 (-3) 1, by with_unfolding_all decide,
      -3, rfl, by norm_num⟩, h.2 ?_ ?_ ?_ ?_ ?_⟩
  · exact ⟨mkRaw "B" (-2) 3 1, by with_unfolding_all decide, -2, rfl, by norm_num⟩
  · intro r hr p hp
    fin_cases hr <;> (injection hp with h; rw [← h]) <;> norm_num
  · exact ⟨mkRaw "A" 1 5 1, by with_unfolding_all decide, by simp [mkRaw]⟩
  · exact ⟨mkRaw "A" 1 5 1, by with_unfolding_all decide, by simp [mkRaw]⟩
  · exact ⟨mkRaw "A" 1 5 1, by with_unfolding_all decide, by simp [mkRaw]⟩

/-- C9 (amended): the monthly revenue series has one entry per distinct
month of the table; with fewer than 2 distinct months the growth category
contains no month-over-month value; with at least 2 months, a previous
month whose revenue is **not positive** (zero or negative) yields a null
`revenue_mom` with trend `"stable"`, while a positive previous month
yields the rounded growth percentage with trend `"increasing"` exactly
when the growth is positive and `"decreasing"` otherwise. -/
theorem growth_rates_amended (df : List Row) :
    (monthlyRevenue df).length = numDistinct (df.filterMap monthKeyOf) ∧
    ((monthlyRevenue df).length < 2 →
      calcGrowthRates (monthlyRevenue df) = none) ∧
    (∀ kp p kc c,
      2 ≤ (monthlyRevenue df).length →
      (sortBy (fun a b => monthKeyLt a.1 b.1) (monthlyRevenue df)).getD
        ((monthlyRevenue df).length - 2) ((0, 0), 0) = (kp, p) →
      (sortBy (fun a b => monthKeyLt a.1 b.1) (monthlyRevenue df)).getD
        ((monthlyRevenue df).length - 1) ((0, 0), 0) = (kc, c) →
      ((p ≤ 0 → calcGrowthRates (monthlyRevenue df) =
          some { revenueMom := none, revenueTrend := "stable" }) ∧
       (0 < p → calcGrowthRates (monthlyRevenue df) =
          some { revenueMom := some (pyRound 2 ((c - p) / p * 100))
                 revenueTrend :=
                   if 0 < (c - p) / p * 100 then "increasing"
                   else "decreasing" }))) := by
  refine ⟨?_, ?_, ?_⟩
  · show (List.map _ (sortBy monthKeyLt
      (dedupKeepFirst (df.filterMap monthKeyOf)))).length = _
    rw [List.length_map, length_sortBy]
    rfl
  · intro h
    unfold calcGrowthRates
    rw [if_neg (by omega)]
  · intro kp p kc c h2 hp hc
    have hlen : (sortBy (fun a b => monthKeyLt a.1 b.1)
        (monthlyRevenue df)).length = (monthlyRevenue df).length :=
      length_sortBy _ _
    unfold calcGrowthRates
    rw [if_pos h2]
    simp only [hlen, hp, hc]
    constructor
    · intro hple
      rw [if_neg (by exact not_lt.2 hple)]
    · intro hppos
      rw [if_pos hppos]

/-- C9 witness: the amended growth behaviour evaluated on a cleaned
two-month table with January revenue 5 and February revenue 3 (positive
previous month, negative growth). -/
theorem growth_rates_amended_witness :
    calcGrowthRates (monthlyRevenue (cleanDataset posPrevMonthInput).1) =
      some { revenueMom := some (pyRound 2 (((3 : Rat) - 5) / 5 * 100))
             revenueTrend :=
               if 0 < ((3 : Rat) - 5) / 5 * 100 then "increasing"
               else "decreasing" } :=
  (((growth_rates_amended (cleanDataset posPrevMonthInput).1).2.2
    (2023, 1) 5 (2023, 2) 3
    (by with_unfolding_all decide) (by with_unfolding_all decide)
    (by with_unfolding_all decide)).2 (by norm_num))

/-- Review-flagging does not change the `Quantity` column. -/
theorem filterMap_quantity_flagmap (E l : List Row) :
    (l.map (fun x => if suspiciousIn E x
      then { x with needsReview := some true } else x)).filterMap (·.quantity) =
    l.filterMap (·.quantity) := by
  rw [List.filterMap_map]
  refine List.filterMap_congr (fun x _ => ?_)
  show ((if suspiciousIn E x then { x with needsReview := some true }
    else x) : Row).quantity = x.quantity
  split <;> rfl

/-- Review-flagging does not change the `UnitPrice` column. -/
theorem filterMap_price_flagmap (E l : List Row) :
    (l.map (fun x => if suspiciousIn E x
      then { x with needsReview := some true } else x)).filterMap (·.unitPrice) =
    l.filterMap (·.unitPrice) := by
  rw [List.filterMap_map]
  refine List.filterMap_congr (fun x _ => ?_)
  show ((if suspiciousIn E x then { x with needsReview := some true }
    else x) : Row).unitPrice = x.unitPrice
  split <;> rfl

/-- Derivation does not change the `Quantity` column. -/
theorem filterMap_quantity_derivemap (A B : Option Rat) (l : List Row) :
    (l.map (deriveRow A B)).filterMap (·.quantity) =
      l.filterMap (·.quantity) := by
  rw [List.filterMap_map]
  exact List.filterMap_congr (fun x _ => rfl)

/-- Derivation does not change the `UnitPrice` column. -/
theorem filterMap_price_derivemap (A B : Option Rat) (l : List Row) :
    (l.map (deriveRow A B)).filterMap (·.unitPrice) =
      l.filterMap (·.unitPrice) := by
  rw [List.filterMap_map]
  exact List.filterMap_congr (fun x _ => rfl)

/-- C7 (amended): re-cleaning the output of a cleaning run on a raw
table (one whose quality/review flag columns are unset) never changes the
row count; and when the first run's duplicate-resolution stage removed no
rows, the second run reproduces the first run's table exactly, derived
columns included. -/
theorem clean_twice_stable (df : List Row)
    (hraw : ∀ r ∈ df, r.qualityFlag = none ∧ r.needsReview = none) :
    (cleanDataset (cleanDataset df).1).1.length = (cleanDataset df).1.length ∧
    ((cleanDataset df).2.dupStats.exactDuplicatesRemoved = none →
      (cleanDataset (cleanDataset df).1).1 = (cleanDataset df).1) := by
  set d4 := standardizeText (removeInvalidRows
    (fixDataTypes (handleMissingValues df))) with hd4def
  set A := seriesQuantile (99/100) (d4.filterMap (·.quantity)) with hAdef
  set B := seriesQuantile (99/100) (d4.filterMap (·.unitPrice)) with hBdef
  set d5 := d4.map (deriveRow A B) with hd5def
  set D := dedupKeepFirst d5 with hDdef
  set c1 := D.map (fun x => if suspiciousIn D x
    then { x with needsReview := some true } else x) with hc1def
  have hc1eq : (cleanDataset df).1 = c1 := rfl
  have hflag4 : ∀ r ∈ d4, r.qualityFlag = none ∧ r.needsReview = none :=
    mem_stage4_flags df hraw
  have hshapes := fun r hr => mem_cleanDataset_shapes df r (hc1eq ▸ hr)
  have hd5rev : ∀ u ∈ d5, u.needsReview = none := by
    intro u hu
    rw [hd5def] at hu
    obtain ⟨r4, hr4, hder⟩ := List.mem_map.1 hu
    rw [← hder]
    exact (hflag4 r4 hr4).2
  have hDrev : ∀ u ∈ D, u.needsReview = none := fun u hu =>
    hd5rev u (mem_dedupKeepFirst.1 (hDdef ▸ hu))
  -- the first-run table has no duplicate rows
  have hc1nodup : c1.Nodup := by
    rw [hc1def]
    refine List.Nodup.map_on ?_ (hDdef ▸ nodup_dedupKeepFirst d5)
    intro x hx y hy hxy
    have hxrev : x.needsReview = none := hDrev x hx
    have hyrev : y.needsReview = none := hDrev y hy
    by_cases hsx : suspiciousIn D x = true <;>
      by_cases hsy : suspiciousIn D y = true
    · rw [if_pos hsx, if_pos hsy] at hxy
      exact review_inj x y hxrev hyrev _ _ hxy
    · rw [if_pos hsx, if_neg hsy] at hxy
      have := congrArg Row.needsReview hxy
      simp only [hyrev] at this
      exact absurd this (by simp)
    · rw [if_neg hsx, if_pos hsy] at hxy
      have := congrArg Row.needsReview hxy
      simp only [hxrev] at this
      exact absurd this (by simp)
    · rw [if_neg hsx, if_neg hsy] at hxy
      exact hxy
  -- the raw columns of a first-run row determine the whole row
  have hinj : ∀ x ∈ c1, ∀ y ∈ c1, x.originals = y.originals → x = y := by
    intro x hx y hy ho
    rw [hc1def] at hx hy
    obtain ⟨u, hu, hux⟩ := List.mem_map.1 hx
    obtain ⟨v, hv, hvy⟩ := List.mem_map.1 hy
    have hu5 : u ∈ d5 := mem_dedupKeepFirst.1 (hDdef ▸ hu)
    have hv5 : v ∈ d5 := mem_dedupKeepFirst.1 (hDdef ▸ hv)
    rw [hd5def] at hu5 hv5
    obtain ⟨r4, hr4, hur⟩ := List.mem_map.1 hu5
    obtain ⟨s4, hs4, hvs⟩ := List.mem_map.1 hv5
    have hor : r4.originals = x.originals := by
      rw [← hux, (flag_ite_keeps (suspiciousIn D u = true) u).1, ← hur]
      exact ((deriveRow_keeps A B r4).1).symm
    have hos : s4.originals = y.originals := by
      rw [← hvy, (flag_ite_keeps (suspiciousIn D v = true) v).1, ← hvs]
      exact ((deriveRow_keeps A B s4).1).symm
    have hoeq : r4.originals = s4.originals := by rw [hor, ho, ← hos]
    have hderiveeq : deriveRow A B r4 = deriveRow A B s4 := by
      have hrev4 : r4.needsReview = none := (hflag4 r4 hr4).2
      have hrevs : s4.needsReview = none := (hflag4 s4 hs4).2
      have hfeq : r4.qualityFlag = s4.qualityFlag := by
        rw [(hflag4 r4 hr4).1, (hflag4 s4 hs4).1]
      calc deriveRow A B r4
          = { deriveRow A B s4 with needsReview := r4.needsReview } :=
            deriveRow_congr2 A B r4 s4 hoeq (Or.inl hfeq)
        _ = { deriveRow A B s4 with needsReview := none } := by rw [hrev4]
        _ = deriveRow A B s4 := by
            rw [show (none : Option Bool) =
              (deriveRow A B s4).needsReview from hrevs.symm]
    have huv : u = v := by rw [← hur, ← hvs, hderiveeq]
    rw [← hux, ← hvy, huv]
  -- the second run's stages 1–4 are the identity
  have he1 : handleMissingValues c1 = c1 := by
    refine handleMissingValues_eq_self c1 (fun r hr => ?_)
    obtain ⟨_, _, hcu, ⟨t, ht⟩, ⟨s, hs⟩, _, ⟨p, hp, _⟩, ⟨q, hq, _⟩⟩ :=
      hshapes r hr
    exact ⟨hcu, by rw [ht]; rfl, by rw [hs]; rfl, by rw [hq]; rfl,
      by rw [hp]; rfl⟩
  have he2 : fixDataTypes c1 = c1 := by
    refine fixDataTypes_eq_self c1 (fun r hr => ?_)
    obtain ⟨hi, hst, hcu, ⟨t, ht⟩, ⟨s, hs⟩, _, ⟨p, hp, _⟩, ⟨q, hq, _⟩⟩ :=
      hshapes r hr
    exact ⟨hi, hst, hcu, by rw [hs]; rfl, by rw [hq]; rfl, by rw [hp]; rfl⟩
  have he3 : removeInvalidRows c1 = c1 := by
    refine removeInvalidRows_eq_self c1 (fun r hr => ?_)
    obtain ⟨_, _, _, _, _, hdt, hpq, hqq⟩ := hshapes r hr
    exact ⟨hdt, hpq, hqq⟩
  have he4 : standardizeText c1 = c1 := by
    refine standardizeText_eq_self c1 (fun r hr => ?_)
    obtain ⟨_, _, _, ⟨t, ht⟩, ⟨s, hs⟩, _, _, _⟩ := hshapes r hr
    exact ⟨⟨s, hs⟩, ⟨t, ht⟩⟩
  set A2 := seriesQuantile (99/100) (c1.filterMap (·.quantity)) with hA2def
  set B2 := seriesQuantile (99/100) (c1.filterMap (·.unitPrice)) with hB2def
  have hrun2 : (cleanDataset c1).1 =
      (dedupKeepFirst (c1.map (deriveRow A2 B2))).map
        (fun x => if suspiciousIn (dedupKeepFirst (c1.map (deriveRow A2 B2))) x
          then { x with needsReview := some true } else x) := by
    have h0 : (cleanDataset c1).1 = (removeDuplicates (createDerivedColumns
        (standardizeText (removeInvalidRows
          (fixDataTypes (handleMissingValues c1)))))).1 := rfl
    rw [h0, he1, he2, he3, he4]
    rfl
  have he5nodup : (c1.map (deriveRow A2 B2)).Nodup := by
    refine List.Nodup.map_on ?_ hc1nodup
    intro x hx y hy heq
    refine hinj x hx y hy ?_
    calc x.originals = (deriveRow A2 B2 x).originals :=
          ((deriveRow_keeps A2 B2 x).1).symm
      _ = (deriveRow A2 B2 y).originals := by rw [heq]
      _ = y.originals := (deriveRow_keeps A2 B2 y).1
  have hlen2 : (cleanDataset c1).1.length = c1.length := by
    rw [hrun2, List.length_map, dedupKeepFirst_eq_self he5nodup,
      List.length_map]
  refine ⟨by rw [hc1eq, hlen2], fun hnone => ?_⟩
  -- no exact duplicates were removed, so dedup was the identity
  have hstat : (cleanDataset df).2.dupStats.exactDuplicatesRemoved =
      (if 0 < d5.length - D.length
       then some (d5.length - D.length) else none) := rfl
  rw [hstat] at hnone
  have hcnt0 : d5.length - D.length = 0 := by
    by_contra hne
    rw [if_pos (Nat.pos_of_ne_zero hne)] at hnone
    exact Option.noConfusion hnone
  have hDlen : (dedupKeepFirst d5).length = d5.length := by
    have hle := length_dedupKeepFirst_le d5
    rw [← hDdef] at hle ⊢
    omega
  have hDeq : D = d5 := by
    rw [hDdef]
    exact dedupKeepFirst_eq_self (nodup_of_dedupKeepFirst_length hDlen)
  -- the second run recomputes the same percentile thresholds
  have hqcol : c1.filterMap (·.quantity) = d4.filterMap (·.quantity) := by
    rw [hc1def, filterMap_quantity_flagmap, hDeq, hd5def,
      filterMap_quantity_derivemap]
  have hpcol : c1.filterMap (·.unitPrice) = d4.filterMap (·.unitPrice) := by
    rw [hc1def, filterMap_price_flagmap, hDeq, hd5def,
      filterMap_price_derivemap]
  have hA2A : A2 = A := by rw [hA2def, hAdef, hqcol]
  have hB2B : B2 = B := by rw [hB2def, hBdef, hpcol]
  -- re-deriving the first-run table changes nothing
  have he5 : c1.map (deriveRow A2 B2) = c1 := by
    rw [hA2A, hB2B, hc1def, List.map_map]
    refine List.map_congr_left (fun u hu => ?_)
    have hu5 : u ∈ d5 := mem_dedupKeepFirst.1 (hDdef ▸ hu)
    rw [hd5def] at hu5
    obtain ⟨r4, hr4, hur⟩ := List.mem_map.1 hu5
    have hfl : r4.qualityFlag = none := (hflag4 r4 hr4).1
    simp only [Function.comp_apply]
    rw [← hur]
    show deriveRow A B (if suspiciousIn D (deriveRow A B r4)
      then { deriveRow A B r4 with needsReview := some true }
      else deriveRow A B r4) =
      (if suspiciousIn D (deriveRow A B r4)
      then { deriveRow A B r4 with needsReview := some true }
      else deriveRow A B r4)
    split
    · exact deriveRow_reapply A B r4 hfl (some true)
    · exact deriveRow_reapply A B r4 hfl (deriveRow A B r4).needsReview
  -- the second run's duplicate stage finds nothing and re-flags the same
  rw [hc1eq, hrun2, he5, dedupKeepFirst_eq_self hc1nodup]
  refine map_eq_self c1 _ (fun r hr => ?_)
  by_cases hs : suspiciousIn c1 r = true
  · rw [if_pos hs]
    -- a suspicious second-run row was already flagged in the first run
    have hrev : r.needsReview = some true := by
      rw [hc1def] at hr
      obtain ⟨u, hu, hur⟩ := List.mem_map.1 hr
      have htr : suspiciousIn c1 r = suspiciousIn D u := by
        rw [← hur, hc1def]
        exact suspiciousIn_map_flag D u
      rw [htr] at hs
      rw [← hur, if_pos hs]
    rw [← hrev]
  · rw [if_neg hs]

/-- Witness: `clean_twice_stable` applied to the concrete raw two-row
table `mixedTable`, whose quality/review columns are unset. -/
theorem clean_twice_stable_witness :
    (cleanDataset (cleanDataset mixedTable).1).1.length =
      (cleanDataset mixedTable).1.length ∧
    ((cleanDataset mixedTable).2.dupStats.exactDuplicatesRemoved = none →
      (cleanDataset (cleanDataset mixedTable).1).1 =
        (cleanDataset mixedTable).1) :=
  clean_twice_stable mixedTable (by with_unfolding_all decide)

/-- C1: in every cleaned table, each record's net revenue equals its
sales revenue minus its returns value, and the summed net revenue equals
the summed transaction value `Quantity * UnitPrice`. -/
theorem net_revenue_invariant (df : List Row) :
    (∀ r ∈ (cleanDataset df).1,
      r.netRevenue = some (r.salesRevenue.getD 0 - r.returnsValue.getD 0)) ∧
    ((cleanDataset df).1.map (fun r => r.netRevenue.getD 0)).sum =
      ((cleanDataset df).1.map
        (fun r => r.quantity.getD 0 * r.unitPrice.getD 0)).sum := by
  constructor
  · intro r hr
    obtain ⟨q, p, _, _, _, _, _, hsales, hrets, hnet⟩ :=
      mem_cleanDataset_fields df r hr
    rw [hnet, hsales, hrets]
    simp
  · rw [List.map_congr_left (fun r hr => cleaned_net_eq_qty_mul_price df r hr)]

/-- C1 witness: the invariant evaluated on a table with one sale and one
return. -/
theorem net_revenue_invariant_witness :
    (∀ r ∈ (cleanDataset mixedTable).1,
      r.netRevenue = some (r.salesRevenue.getD 0 - r.returnsValue.getD 0)) ∧
    ((cleanDataset mixedTable).1.map (fun r => r.netRevenue.getD 0)).sum =
      ((cleanDataset mixedTable).1.map
        (fun r => r.quantity.getD 0 * r.unitPrice.getD 0)).sum :=
  net_revenue_invariant mixedTable

/-- C2: in every cleaned table, the sales-revenue field is 0 whenever the
record's quantity is ≤ 0, and the returns-value field is 0 whenever the
quantity is ≥ 0. -/
theorem sales_returns_sign_rule (df : List Row) :
    ∀ r ∈ (cleanDataset df).1, ∀ q, r.quantity = some q →
      (q ≤ 0 → r.salesRevenue = some 0) ∧ (0 ≤ q → r.returnsValue = some 0) := by
  intro r hr q hq
  obtain ⟨q', p, hq', _, _, _, _, hsales, hrets, _⟩ :=
    mem_cleanDataset_fields df r hr
  obtain rfl : q = q' := by rw [hq] at hq'; exact Option.some.inj hq'
  constructor
  · intro hle
    rw [hsales, if_neg (not_lt.2 hle)]
  · intro hge
    rw [hrets, if_neg (not_lt.2 hge)]

/-- C2 witness: the sign rule evaluated on the first cleaned row of
`mixedTable` (a sale of quantity 2, so its returns value is 0). -/
theorem sales_returns_sign_rule_witness :
    c2row ∈ (cleanDataset mixedTable).1 ∧ c2row.quantity = some 2 ∧
      (0 ≤ (2 : Rat) → c2row.returnsValue = some 0) :=
  ⟨by with_unfolding_all decide, by with_unfolding_all decide,
   (sales_returns_sign_rule mixedTable c2row (by with_unfolding_all decide) 2
     (by with_unfolding_all decide)).2⟩

/-- C10: every record of a derived-columns table has a data-quality score
of exactly 1, 0.7, or 0.49 — 1 when neither its quantity nor its unit
price exceeds 3 times that column's 99th percentile, 0.7 when exactly one
does, 0.49 when both do — so the score is strictly positive and at most
1. -/
theorem quality_score_trichotomy (l : List Row) :
    ∀ r ∈ createDerivedColumns l,
      r.dataQualityScore = some (
        if exceedsThreshold r.quantity (seriesQuantile (99/100)
            ((createDerivedColumns l).filterMap (·.quantity)))
        then (if exceedsThreshold r.unitPrice (seriesQuantile (99/100)
            ((createDerivedColumns l).filterMap (·.unitPrice)))
          then (49 : Rat)/100 else 7/10)
        else (if exceedsThreshold r.unitPrice (seriesQuantile (99/100)
            ((createDerivedColumns l).filterMap (·.unitPrice)))
          then (7 : Rat)/10 else 1)) ∧
      (∀ v, r.dataQualityScore = some v → 0 < v ∧ v ≤ 1) := by
  have hqcol : (createDerivedColumns l).filterMap (·.quantity) =
      l.filterMap (·.quantity) := by
    show List.filterMap _ (l.map _) = _
    rw [List.filterMap_map]
    rfl
  have hpcol : (createDerivedColumns l).filterMap (·.unitPrice) =
      l.filterMap (·.unitPrice) := by
    show List.filterMap _ (l.map _) = _
    rw [List.filterMap_map]
    rfl
  intro r hr
  obtain ⟨r0, _, hder⟩ := List.mem_map.1 hr
  have hq : r.quantity = r0.quantity := by rw [← hder]; rfl
  have hp : r.unitPrice = r0.unitPrice := by rw [← hder]; rfl
  have hscore : r.dataQualityScore = some (
      (if exceedsThreshold r0.quantity (seriesQuantile (99/100)
          (l.filterMap (·.quantity))) then (7 : Rat)/10 else 1) *
      (if exceedsThreshold r0.unitPrice (seriesQuantile (99/100)
          (l.filterMap (·.unitPrice))) then (7 : Rat)/10 else 1)) := by
    rw [← hder]
    rfl
  rw [hqcol, hpcol, hq, hp, hscore]
  by_cases h1 : exceedsThreshold r0.quantity
      (seriesQuantile (99/100) (l.filterMap (·.quantity))) <;>
    by_cases h2 : exceedsThreshold r0.unitPrice
        (seriesQuantile (99/100) (l.filterMap (·.unitPrice))) <;>
    simp only [h1, h2, if_true, if_false] <;>
    refine ⟨by norm_num, fun v hv => ?_⟩ <;>
    rw [← Option.some.inj hv] <;> constructor <;> norm_num

/-- C10 witness: the trichotomy evaluated on the first derived row of
`mixedTable`, whose quality score is 1. -/
theorem quality_score_trichotomy_witness :
    c10row ∈ createDerivedColumns mixedTable ∧
      c10row.dataQualityScore = some 1 ∧ 0 < (1 : Rat) ∧ (1 : Rat) ≤ 1 :=
  ⟨by with_unfolding_all decide, by with_unfolding_all decide,
   (quality_score_trichotomy mixedTable c10row
     (by with_unfolding_all decide)).2 1 (by with_unfolding_all decide)⟩

end ABI
